import Mathlib

/-!
Verification development for the GFXASS ERP chat/query engine.

The repository has three near-duplicate JS variants of the engine:
`src/chat-main/index.js` (the main variant), `src/unnamed/part_000` and
`src/unnamed/part_001`.  The definitions below are shallow embeddings of
those source functions:

* JS numbers that arise here are exact decimals (`Dec`, a scaled integer
  `m / 10^e`); `JVal.nan` models JS `NaN` and `JVal.null` models
  `null`/`undefined`.  This is faithful for the operations the code
  performs (`parseFloat`, `Number`, `toString`, `||`-defaulting), which
  stay inside decimally-representable values.
* Fallible JS code (method calls on possibly-`undefined` values) is
  embedded with `Except Unit`, an `error` standing for a thrown
  `TypeError`/`RangeError`.
* JS objects used as accumulation maps are embedded as association lists
  in insertion order (faithful for non-array-index string keys, which is
  recorded as a hypothesis where it matters).
* Question/answer round trips to the language model are external; the
  response constructors record exactly which external call is delegated
  to and with which data.
-/

/- Batteries marks the `Rat` arithmetic operations irreducible (they have
fast external implementations).  Restoring semireducibility lets `decide`
evaluate the concrete witnesses below; it changes unfolding hints only,
nothing about the logic. -/
set_option allowUnsafeReducibility true
attribute [semireducible] Rat.add Rat.sub Rat.mul

namespace GfxAss

/-- A JS number that is an exact decimal: value `m / 10^e`. -/
structure Dec where
  m : Int
  e : Nat
deriving DecidableEq, Repr

/-- Canonical form of a `Dec`: no trailing zero factor left in the
mantissa unless the exponent is zero. -/
def decCanon (d : Dec) : Prop := d.e = 0 ∨ d.m % 10 ≠ 0

instance (d : Dec) : Decidable (decCanon d) := by
  unfold decCanon; infer_instance

/-- The rational value denoted by a `Dec`. -/
def decVal (d : Dec) : ℚ := (d.m : ℚ) / (10 : ℚ) ^ d.e

/-- Normalize a scaled decimal by dividing trailing zero factors out of
the mantissa. -/
def normDec (m : Int) : Nat → Dec
  | 0 => ⟨m, 0⟩
  | e + 1 => if m % 10 = 0 then normDec (m / 10) e else ⟨m, e + 1⟩

/-- JS runtime values as far as this code base observes them: decimal
numbers, `NaN`, strings, and `null`/`undefined` collapsed into one
constructor (the code never distinguishes them). -/
inductive JVal where
  | num : Dec → JVal
  | nan : JVal
  | str : String → JVal
  | null : JVal
deriving DecidableEq, Repr

/-- JS truthiness: `0`, `NaN`, `""`, `null`/`undefined` are falsy. -/
def jsTruthy : JVal → Bool
  | .num d => d.m ≠ 0
  | .nan => false
  | .str s => s ≠ ""
  | .null => false

/-- JS `a || b`. -/
def jsOr (a b : JVal) : JVal := if jsTruthy a then a else b

/-- The character for a single decimal digit. -/
def digitChar (d : Nat) : Char := Char.ofNat (48 + d)

/-- Decode a decimal digit character. -/
def charDigit (c : Char) : Option Nat :=
  if 48 ≤ c.toNat ∧ c.toNat ≤ 57 then some (c.toNat - 48) else none

/-- Longest prefix of decimal digits of a character list, decoded. -/
def takeDigits : List Char → List Nat × List Char
  | [] => ([], [])
  | c :: cs =>
      match charDigit c with
      | some d => let p := takeDigits cs; (d :: p.1, p.2)
      | none => ([], c :: cs)

/-- Value of a big-endian digit list. -/
def natFromBE (ds : List Nat) : Nat := ds.foldl (fun a d => 10 * a + d) 0

/-- Little-endian decimal digits, fuelled so the kernel can evaluate it;
`digitsAux n n` agrees with `Nat.digits 10 n`. -/
def digitsAux : Nat → Nat → List Nat
  | 0, _ => []
  | fuel + 1, n => if n = 0 then [] else n % 10 :: digitsAux fuel (n / 10)

/-- Big-endian decimal digits of a natural number (`0` gets one digit). -/
def natDigitsBE (n : Nat) : List Nat :=
  if n = 0 then [0] else (digitsAux n n).reverse

/-- JS whitespace test (the subset that matters here). -/
def isWs (c : Char) : Bool := c = ' ' ∨ c = '\t' ∨ c = '\n' ∨ c = '\r'

/-- Split an optional leading sign off a character list. -/
def splitSign : List Char → Bool × List Char
  | [] => (false, [])
  | c :: r =>
      if c = '-' then (true, r)
      else if c = '+' then (false, r)
      else (false, c :: r)

/-- Digits after a leading decimal point, if present. -/
def fracDigits : List Char → List Nat
  | '.' :: r2 => (takeDigits r2).1
  | _ => []

/-- Core of JS `parseFloat` on a character list: optional sign, digits,
optionally a decimal point and more digits; everything after the longest
such prefix is ignored.  (Exponent notation does not occur in the data
this code handles and is not modelled.)  No digits at all gives `NaN`. -/
def parseFloatCore (cs : List Char) : JVal :=
  let sp := splitSign (cs.dropWhile isWs)
  let p1 := takeDigits sp.2
  let ds2 := fracDigits p1.2
  if p1.1 = [] ∧ ds2 = [] then .nan
  else
    let n : Int := (natFromBE (p1.1 ++ ds2) : Int)
    .num (normDec (if sp.1 then -n else n) ds2.length)

/-- JS `parseFloat` on a string. -/
def parseFloatJS (s : String) : JVal := parseFloatCore s.data

/-- Render a canonical decimal the way JS `Number.prototype.toString`
renders it (plain decimal notation; the values this code produces never
reach the magnitudes where JS switches to exponent notation). -/
def decToString (d : Dec) : String :=
  let n := d.m.natAbs
  let body :=
    if d.e = 0 then String.mk ((natDigitsBE n).map digitChar)
    else
      let ds := natDigitsBE n
      let ds := List.replicate (d.e + 1 - ds.length) 0 ++ ds
      String.mk ((ds.take (ds.length - d.e)).map digitChar) ++ "." ++
        String.mk ((ds.drop (ds.length - d.e)).map digitChar)
  if d.m < 0 then "-" ++ body else body

/-- JS `(v).toString()` for the values that reach it in this code. -/
def jsToString : JVal → String
  | .num d => decToString d
  | .nan => "NaN"
  | .str s => s
  | .null => "null"

/-- JS `String.prototype.replace` with a single-character pattern and an
empty replacement: removes the FIRST occurrence only. -/
def removeFirstChar (c : Char) : List Char → List Char
  | [] => []
  | x :: xs => if x = c then xs else x :: removeFirstChar c xs

/-- JS `Number(v)` string conversion: trimmed, empty means `0`, otherwise
the whole string must be a signed decimal literal, else `NaN`.  (Hex and
`Infinity` literals do not occur in this data and are not modelled.) -/
def numberOfString (s : String) : JVal :=
  let cs := (s.data.dropWhile isWs).reverse.dropWhile isWs |>.reverse
  if cs = [] then .num ⟨0, 0⟩
  else
    let sp := splitSign cs
    let p1 := takeDigits sp.2
    let p2 : List Nat × List Char :=
      match p1.2 with
      | '.' :: r2 => takeDigits r2
      | r => ([], r)
    if p2.2 = [] ∧ ¬(p1.1 = [] ∧ p2.1 = []) then
      let n : Int := (natFromBE (p1.1 ++ p2.1) : Int)
      .num (normDec (if sp.1 then -n else n) p2.1.length)
    else .nan

/-- JS `Number(v)`. -/
def jsNumber : JVal → JVal
  | .num d => .num d
  | .nan => .nan
  | .null => .num ⟨0, 0⟩
  | .str s => numberOfString s

/-! ### Round-trip facts: printing a parsed decimal and parsing it back -/

lemma digitsAux_eq : ∀ fuel n, n ≤ fuel → digitsAux fuel n = Nat.digits 10 n := by
  intro fuel
  induction fuel with
  | zero =>
      intro n hn
      interval_cases n
      simp [digitsAux]
  | succ fuel ih =>
      intro n hn
      by_cases h0 : n = 0
      · subst h0; simp [digitsAux]
      · rw [digitsAux, if_neg h0, Nat.digits_def' (by norm_num) (Nat.pos_of_ne_zero h0),
          ih (n / 10) (by omega)]

lemma natDigitsBE_eq (n : Nat) (h : n ≠ 0) :
    natDigitsBE n = (Nat.digits 10 n).reverse := by
  rw [natDigitsBE, if_neg h, digitsAux_eq n n le_rfl]

lemma mem_natDigitsBE_lt (n : Nat) : ∀ d ∈ natDigitsBE n, d < 10 := by
  intro d hd
  by_cases h : n = 0
  · subst h; simp [natDigitsBE] at hd; omega
  · rw [natDigitsBE_eq n h, List.mem_reverse] at hd
    exact Nat.digits_lt_base (by norm_num) hd

lemma natDigitsBE_ne_nil (n : Nat) : natDigitsBE n ≠ [] := by
  by_cases h : n = 0
  · subst h; simp [natDigitsBE]
  · rw [natDigitsBE_eq n h]
    simp [Nat.digits_ne_nil_iff_ne_zero, h]

lemma foldl_natFrom (l : List Nat) : ∀ a,
    List.foldl (fun a d => 10 * a + d) a l = a * 10 ^ l.length + natFromBE l := by
  induction l with
  | nil => intro a; simp [natFromBE]
  | cons d l ih =>
      intro a
      have hd : natFromBE (d :: l) = d * 10 ^ l.length + natFromBE l := by
        rw [natFromBE, List.foldl_cons, ih (10 * 0 + d)]
        ring_nf
      rw [List.foldl_cons, ih (10 * a + d), hd, List.length_cons]
      ring

lemma natFromBE_append (l1 l2 : List Nat) :
    natFromBE (l1 ++ l2) = natFromBE l1 * 10 ^ l2.length + natFromBE l2 := by
  rw [natFromBE, List.foldl_append, foldl_natFrom]
  rfl

lemma natFromBE_replicate_zero (k : Nat) : natFromBE (List.replicate k 0) = 0 := by
  induction k with
  | zero => rfl
  | succ k ih =>
      rw [List.replicate_succ, natFromBE, List.foldl_cons]
      simpa [natFromBE] using ih

lemma natFromBE_pad (k : Nat) (l : List Nat) :
    natFromBE (List.replicate k 0 ++ l) = natFromBE l := by
  rw [natFromBE_append, natFromBE_replicate_zero]
  simp

lemma natFromBE_reverse (l : List Nat) :
    natFromBE l.reverse = Nat.ofDigits 10 l := by
  induction l with
  | nil => rfl
  | cons d l ih =>
      rw [List.reverse_cons, natFromBE_append, ih, Nat.ofDigits_cons]
      simp [natFromBE]
      ring

lemma natFromBE_digitsBE (n : Nat) : natFromBE (natDigitsBE n) = n := by
  by_cases h : n = 0
  · subst h; rfl
  · rw [natDigitsBE_eq n h, natFromBE_reverse, Nat.ofDigits_digits]

lemma digitChar_facts (d : Nat) (h : d < 10) :
    charDigit (digitChar d) = some d ∧ digitChar d ≠ '-' ∧ digitChar d ≠ '+' ∧
      digitChar d ≠ '.' ∧ digitChar d ≠ '%' ∧ digitChar d ≠ ',' ∧
      isWs (digitChar d) = false := by
  interval_cases d <;> exact ⟨rfl, by decide, by decide, by decide, by decide, by decide, by decide⟩

/-- A character list that does not begin with a decimal digit. -/
def headNotDigit : List Char → Prop
  | [] => True
  | c :: _ => charDigit c = none

lemma takeDigits_map (ds : List Nat) (h : ∀ d ∈ ds, d < 10) (r : List Char)
    (hr : headNotDigit r) : takeDigits (ds.map digitChar ++ r) = (ds, r) := by
  induction ds with
  | nil =>
      simp only [List.map_nil, List.nil_append]
      match r with
      | [] => rfl
      | c :: cs =>
          simp only [headNotDigit] at hr
          rw [takeDigits, hr]
  | cons d ds ih =>
      have hd := (digitChar_facts d (h d (by simp))).1
      rw [List.map_cons, List.cons_append, takeDigits, hd,
        ih (fun x hx => h x (by simp [hx])) ]

lemma removeFirstChar_of_not_mem (c : Char) (l : List Char) (h : c ∉ l) :
    removeFirstChar c l = l := by
  induction l with
  | nil => rfl
  | cons x xs ih =>
      rw [removeFirstChar, if_neg (by rintro rfl; exact h (by simp)),
        ih (fun hx => h (by simp [hx]))]

lemma normDec_stop (m : Int) (hm : m % 10 ≠ 0) : ∀ e, normDec m e = ⟨m, e⟩ := by
  intro e
  cases e with
  | zero => rfl
  | succ e => rw [normDec, if_neg hm]

lemma decCanon_normDec (m : Int) : ∀ e, decCanon (normDec m e) := by
  intro e
  induction e generalizing m with
  | zero => exact Or.inl rfl
  | succ e ih =>
      rw [normDec]
      by_cases h : m % 10 = 0
      · rw [if_pos h]; exact ih (m / 10)
      · rw [if_neg h]; exact Or.inr h

lemma parseFloatCore_canon (cs : List Char) (d : Dec)
    (h : parseFloatCore cs = .num d) : decCanon d := by
  rw [parseFloatCore] at h
  by_cases hc : (takeDigits (splitSign (cs.dropWhile isWs)).2).1 = [] ∧
      fracDigits (takeDigits (splitSign (cs.dropWhile isWs)).2).2 = []
  · rw [if_pos hc] at h
    exact (JVal.noConfusion h)
  · simp only [if_neg hc, JVal.num.injEq] at h
    rw [← h]
    apply decCanon_normDec

lemma mem_decToString (d : Dec) (c : Char) (hc : c ∈ (decToString d).data) :
    c = '-' ∨ c = '.' ∨ ∃ k, k < 10 ∧ c = digitChar k := by
  have hdig : ∀ (l : List Nat), (∀ x ∈ l, x < 10) →
      ∀ c ∈ l.map digitChar, c = '-' ∨ c = '.' ∨ ∃ k, k < 10 ∧ c = digitChar k := by
    intro l hl c hmem
    rcases List.mem_map.mp hmem with ⟨k, hk, rfl⟩
    exact Or.inr (Or.inr ⟨k, hl k hk, rfl⟩)
  have hlt : ∀ x ∈ natDigitsBE d.m.natAbs, x < 10 := mem_natDigitsBE_lt _
  have hlt2 : ∀ x ∈ List.replicate
      (d.e + 1 - (natDigitsBE d.m.natAbs).length) 0 ++ natDigitsBE d.m.natAbs,
      x < 10 := by
    intro x hx
    rcases List.mem_append.mp hx with hx | hx
    · rw [List.eq_of_mem_replicate hx]; omega
    · exact hlt x hx
  have hbody : ∀ c' ∈ ((if d.e = 0 then
        String.mk ((natDigitsBE d.m.natAbs).map digitChar)
      else
        let ds := natDigitsBE d.m.natAbs
        let ds := List.replicate (d.e + 1 - ds.length) 0 ++ ds
        String.mk ((ds.take (ds.length - d.e)).map digitChar) ++ "." ++
          String.mk ((ds.drop (ds.length - d.e)).map digitChar)) : String).data,
      c' = '-' ∨ c' = '.' ∨ ∃ k, k < 10 ∧ c' = digitChar k := by
    intro c' hc'
    by_cases he : d.e = 0
    · rw [if_pos he] at hc'
      exact hdig _ hlt c' hc'
    · rw [if_neg he] at hc'
      simp only [String.data_append] at hc'
      rcases List.mem_append.mp hc' with hc' | hc'
      · rcases List.mem_append.mp hc' with hc' | hc'
        · exact hdig _ (fun x hx => hlt2 x (List.mem_of_mem_take hx)) c' hc'
        · right; left
          simpa using hc'
      · exact hdig _ (fun x hx => hlt2 x (List.mem_of_mem_drop hx)) c' hc'
  rw [decToString] at hc
  by_cases hm : d.m < 0
  · simp only [if_pos hm, String.data_append] at hc
    rcases List.mem_append.mp hc with hc | hc
    · left; simpa using hc
    · exact hbody c hc
  · simp only [if_neg hm] at hc
    exact hbody c hc

lemma parseFloatCore_exact (neg : Bool) (ds1 ds2 : List Nat)
    (h1 : ∀ x ∈ ds1, x < 10) (h2 : ∀ x ∈ ds2, x < 10) (hne : ds1 ≠ []) :
    parseFloatCore ((if neg then ['-'] else []) ++ ds1.map digitChar ++
        (if ds2 = [] then [] else '.' :: ds2.map digitChar)) =
      .num (normDec
        (if neg then -(natFromBE (ds1 ++ ds2) : Int) else (natFromBE (ds1 ++ ds2) : Int))
        ds2.length) := by
  obtain ⟨x, xs, rfl⟩ := List.exists_cons_of_ne_nil hne
  have hx := digitChar_facts x (h1 x (by simp))
  set tl : List Char := if ds2 = [] then [] else '.' :: ds2.map digitChar with htl
  have htl_nd : headNotDigit tl := by
    rw [htl]
    by_cases h : ds2 = []
    · rw [if_pos h]; trivial
    · rw [if_neg h]
      show charDigit '.' = none
      decide
  have htd : takeDigits (digitChar x :: (List.map digitChar xs ++ tl)) = (x :: xs, tl) := by
    have := takeDigits_map (x :: xs) h1 tl htl_nd
    simpa using this
  have hfrac : fracDigits tl = ds2 := by
    rw [htl]
    by_cases h : ds2 = []
    · rw [if_pos h, h]; rfl
    · rw [if_neg h]
      show (takeDigits (ds2.map digitChar)).1 = ds2
      rw [← List.append_nil (ds2.map digitChar), takeDigits_map _ h2 [] trivial]
  have hcond : ¬((x :: xs) = [] ∧ ds2 = [] ∧ True) := by simp
  cases neg with
  | true =>
      show parseFloatCore ('-' :: (digitChar x :: (List.map digitChar xs ++ tl))) = _
      rw [parseFloatCore,
        show List.dropWhile isWs ('-' :: (digitChar x :: (List.map digitChar xs ++ tl))) =
          '-' :: (digitChar x :: (List.map digitChar xs ++ tl)) from by
            rw [List.dropWhile_cons, show isWs '-' = false from by decide]; simp,
        show splitSign ('-' :: (digitChar x :: (List.map digitChar xs ++ tl))) =
          (true, digitChar x :: (List.map digitChar xs ++ tl)) from by
            rw [splitSign, if_pos rfl]]
      simp only [htd, hfrac]
      rw [if_neg (by simp)]
  | false =>
      show parseFloatCore (digitChar x :: (List.map digitChar xs ++ tl)) = _
      rw [parseFloatCore,
        show List.dropWhile isWs (digitChar x :: (List.map digitChar xs ++ tl)) =
          digitChar x :: (List.map digitChar xs ++ tl) from by
            rw [List.dropWhile_cons, hx.2.2.2.2.2.2]; simp,
        show splitSign (digitChar x :: (List.map digitChar xs ++ tl)) =
          (false, digitChar x :: (List.map digitChar xs ++ tl)) from by
            rw [splitSign, if_neg hx.2.1, if_neg hx.2.2.1]]
      simp only [htd, hfrac]
      rw [if_neg (by simp)]

lemma parseFloatCore_int_neg (ds1 : List Nat) (h1 : ∀ x ∈ ds1, x < 10)
    (hne : ds1 ≠ []) :
    parseFloatCore ('-' :: ds1.map digitChar) =
      .num (normDec (-(natFromBE ds1 : Int)) 0) := by
  have h := parseFloatCore_exact true ds1 [] h1 (by simp) hne
  simpa using h

lemma parseFloatCore_int_pos (ds1 : List Nat) (h1 : ∀ x ∈ ds1, x < 10)
    (hne : ds1 ≠ []) :
    parseFloatCore (ds1.map digitChar) =
      .num (normDec ((natFromBE ds1 : Int)) 0) := by
  have h := parseFloatCore_exact false ds1 [] h1 (by simp) hne
  simpa using h

lemma parseFloatCore_frac_neg (ds1 ds2 : List Nat) (h1 : ∀ x ∈ ds1, x < 10)
    (h2 : ∀ x ∈ ds2, x < 10) (hne : ds1 ≠ []) (hne2 : ds2 ≠ []) :
    parseFloatCore ('-' :: (ds1.map digitChar ++ '.' :: ds2.map digitChar)) =
      .num (normDec (-(natFromBE (ds1 ++ ds2) : Int)) ds2.length) := by
  have h := parseFloatCore_exact true ds1 ds2 h1 h2 hne
  rw [if_neg hne2] at h
  simpa using h

lemma parseFloatCore_frac_pos (ds1 ds2 : List Nat) (h1 : ∀ x ∈ ds1, x < 10)
    (h2 : ∀ x ∈ ds2, x < 10) (hne : ds1 ≠ []) (hne2 : ds2 ≠ []) :
    parseFloatCore (ds1.map digitChar ++ '.' :: ds2.map digitChar) =
      .num (normDec ((natFromBE (ds1 ++ ds2) : Int)) ds2.length) := by
  have h := parseFloatCore_exact false ds1 ds2 h1 h2 hne
  rw [if_neg hne2] at h
  simpa using h

/-- Printing a canonical decimal and parsing it back is the identity.
This underlies idempotence of the record normalizer on its `gpRate`
pipeline. -/
theorem parse_decToString (d : Dec) (hcanon : decCanon d) :
    parseFloatJS (decToString d) = .num d := by
  obtain ⟨m, e⟩ := d
  simp only [decCanon] at hcanon
  by_cases hm0 : m = 0
  · have he : e = 0 := by
      rcases hcanon with he | hm10
      · exact he
      · omega
    subst hm0 he
    decide
  · have hn0 : m.natAbs ≠ 0 := by omega
    have hlt : ∀ x ∈ natDigitsBE m.natAbs, x < 10 := mem_natDigitsBE_lt _
    have hne : natDigitsBE m.natAbs ≠ [] := natDigitsBE_ne_nil _
    by_cases he : e = 0
    · subst he
      have hdata : (decToString ⟨m, 0⟩).data =
          (if m < 0 then ['-'] else []) ++ (natDigitsBE m.natAbs).map digitChar := by
        rw [decToString]
        by_cases hm : m < 0
        · simp [hm, String.data_append]
        · simp [hm]
      rw [parseFloatJS, hdata]
      by_cases hm : m < 0
      · rw [if_pos hm]
        rw [show ((['-'] : List Char) ++ (natDigitsBE m.natAbs).map digitChar) =
          '-' :: (natDigitsBE m.natAbs).map digitChar from rfl]
        rw [parseFloatCore_int_neg _ hlt hne, natFromBE_digitsBE]
        rw [show -((m.natAbs : Int)) = m from by omega]
        rfl
      · rw [if_neg hm, List.nil_append]
        rw [parseFloatCore_int_pos _ hlt hne, natFromBE_digitsBE]
        rw [show ((m.natAbs : Int)) = m from by omega]
        rfl
    · have hm10 : m % 10 ≠ 0 := by
        rcases hcanon with h | h
        · exact absurd h he
        · exact h
      have hlen0 : (natDigitsBE m.natAbs).length ≠ 0 :=
        fun h => hne (List.length_eq_zero.mp h)
      obtain ⟨ds, hds⟩ : ∃ ds, List.replicate
          (e + 1 - (natDigitsBE m.natAbs).length) 0 ++ natDigitsBE m.natAbs = ds :=
        ⟨_, rfl⟩
      have hdslen : e + 1 ≤ ds.length := by
        rw [← hds, List.length_append, List.length_replicate]
        omega
      have hlt2 : ∀ x ∈ ds, x < 10 := by
        rw [← hds]
        intro x hx
        rcases List.mem_append.mp hx with hx | hx
        · rw [List.eq_of_mem_replicate hx]; omega
        · exact hlt x hx
      have hlt_take : ∀ x ∈ ds.take (ds.length - e), x < 10 :=
        fun x hx => hlt2 x (List.mem_of_mem_take hx)
      have hlt_drop : ∀ x ∈ ds.drop (ds.length - e), x < 10 :=
        fun x hx => hlt2 x (List.mem_of_mem_drop hx)
      have hdroplen : (ds.drop (ds.length - e)).length = e := by
        rw [List.length_drop]
        omega
      have hdropne : ds.drop (ds.length - e) ≠ [] := by
        intro h
        rw [h] at hdroplen
        simp at hdroplen
        omega
      have htakene : ds.take (ds.length - e) ≠ [] := by
        intro h
        have h2 := congrArg List.length h
        rw [List.length_take] at h2
        simp at h2
        omega
      have hval : natFromBE (ds.take (ds.length - e) ++ ds.drop (ds.length - e)) =
          m.natAbs := by
        rw [List.take_append_drop, ← hds, natFromBE_pad, natFromBE_digitsBE]
      have hdata : (decToString ⟨m, e⟩).data =
          (if m < 0 then ['-'] else []) ++ (ds.take (ds.length - e)).map digitChar ++
            ('.' :: (ds.drop (ds.length - e)).map digitChar) := by
        rw [decToString]
        simp only [if_neg he]
        rw [hds]
        by_cases hm : m < 0
        · simp [hm, String.data_append, List.append_assoc]
        · simp [hm, String.data_append, List.append_assoc]
      rw [parseFloatJS, hdata]
      by_cases hm : m < 0
      · rw [if_pos hm]
        rw [show ((['-'] : List Char) ++ (ds.take (ds.length - e)).map digitChar ++
            ('.' :: (ds.drop (ds.length - e)).map digitChar)) =
          '-' :: ((ds.take (ds.length - e)).map digitChar ++
            '.' :: (ds.drop (ds.length - e)).map digitChar) from by simp]
        rw [parseFloatCore_frac_neg _ _ hlt_take hlt_drop htakene hdropne, hval,
          hdroplen]
        rw [show -((m.natAbs : Int)) = m from by omega]
        rw [normDec_stop m hm10]
      · rw [if_neg hm, List.nil_append]
        rw [parseFloatCore_frac_pos _ _ hlt_take hlt_drop htakene hdropne, hval,
          hdroplen]
        rw [show ((m.natAbs : Int)) = m from by omega]
        rw [normDec_stop m hm10]

lemma parseFloatCore_shape (cs : List Char) :
    parseFloatCore cs = .nan ∨ ∃ d, parseFloatCore cs = .num d ∧ decCanon d := by
  rw [parseFloatCore]
  simp only
  split
  · exact Or.inl rfl
  · exact Or.inr ⟨_, rfl, decCanon_normDec _ _⟩

lemma numberOfString_shape (s : String) :
    numberOfString s = .nan ∨ ∃ d, numberOfString s = .num d := by
  rw [numberOfString]
  simp only
  split
  · exact Or.inr ⟨_, rfl⟩
  · split
    · exact Or.inr ⟨_, rfl⟩
    · exact Or.inl rfl

lemma jsNumber_shape (v : JVal) :
    jsNumber v = .nan ∨ ∃ d, jsNumber v = .num d := by
  cases v with
  | num d => exact Or.inr ⟨d, rfl⟩
  | nan => exact Or.inl rfl
  | null => exact Or.inr ⟨⟨0, 0⟩, rfl⟩
  | str s => exact numberOfString_shape s

/-! ### Record normalizer (`summarizeERPData`, src/chat-main/index.js 87-101)

The function spreads the raw record (`...so`) and then overwrites the
derived fields, so the embedded record type carries both the raw upstream
field names and the derived names; unknown/absent fields are `JVal.null`.
`gpRate` is both a raw upstream field and a derived field of the same
name, exactly as in the source. -/

structure SORecord where
  so_pk : JVal
  so_upk : JVal
  Name_Dept : JVal
  Name_Empl : JVal
  Name_Cust : JVal
  TotalAmount_TransH : JVal
  gpRate : JVal
  Status_TransH : JVal
  DateCreated_TransH : JVal
  ContractDescription_TransH : JVal
  Memo_TransH : JVal
  division : JVal
  salesRep : JVal
  amount : JVal
  status : JVal
  date : JVal
  so_number : JVal
deriving DecidableEq, Repr

/-- A record with every field absent. -/
def blankSO : SORecord :=
  ⟨.null, .null, .null, .null, .null, .null, .null, .null, .null, .null, .null,
   .null, .null, .null, .null, .null, .null⟩

/-- One record of `summarizeERPData` (src/chat-main/index.js 87-101):
spread the raw record, then set
`division = so.Name_Dept || "Unknown"`,
`salesRep = so.Name_Empl || "Unknown"`,
`amount = Number(so.TotalAmount_TransH || 0)`,
`gpRate = parseFloat((so.gpRate || "0").toString().replace("%","").replace(",",""))`,
`status = so.Status_TransH`, `date = so.DateCreated_TransH`,
`so_number = so.so_upk || "Unknown"`. -/
def summarizeOne (so : SORecord) : SORecord :=
  { so with
    division := jsOr so.Name_Dept (.str "Unknown")
    salesRep := jsOr so.Name_Empl (.str "Unknown")
    amount := jsNumber (jsOr so.TotalAmount_TransH (.num ⟨0, 0⟩))
    gpRate := parseFloatJS (String.mk (removeFirstChar ','
      (removeFirstChar '%' (jsToString (jsOr so.gpRate (.str "0"))).data)))
    status := so.Status_TransH
    date := so.DateCreated_TransH
    so_number := jsOr so.so_upk (.str "Unknown") }

/-- `summarizeERPData` maps the per-record normalization over a batch. -/
def summarizeERPData (erpData : List SORecord) : List SORecord :=
  erpData.map summarizeOne

/-! ### Normalizer properties (claims C4, C5) -/

lemma not_pct_mem_decToString (d : Dec) : '%' ∉ (decToString d).data := by
  intro hmem
  rcases mem_decToString d '%' hmem with h | h | ⟨k, hk, h⟩
  · exact absurd h (by decide)
  · exact absurd h (by decide)
  · exact (digitChar_facts k hk).2.2.2.2.1 h.symm

lemma not_comma_mem_decToString (d : Dec) : ',' ∉ (decToString d).data := by
  intro hmem
  rcases mem_decToString d ',' hmem with h | h | ⟨k, hk, h⟩
  · exact absurd h (by decide)
  · exact absurd h (by decide)
  · exact (digitChar_facts k hk).2.2.2.2.2.1 h.symm

/-- The gpRate pipeline of the normalizer is stable on a successfully
parsed (hence canonical) decimal. -/
lemma gpRate_pipeline_stable (d : Dec) (hcanon : decCanon d) :
    parseFloatJS (String.mk (removeFirstChar ','
      (removeFirstChar '%' (jsToString (jsOr (.num d) (.str "0"))).data))) = .num d := by
  by_cases hd0 : d.m = 0
  · have he : d.e = 0 := by
      rcases hcanon with he | hm10
      · exact he
      · omega
    obtain ⟨m, e⟩ := d
    simp only at hd0 he
    subst hd0 he
    decide
  · have htr : jsOr (JVal.num d) (.str "0") = .num d := by
      rw [jsOr, if_pos]
      simp [jsTruthy, hd0]
    rw [htr]
    show parseFloatJS (String.mk (removeFirstChar ','
      (removeFirstChar '%' (decToString d).data))) = .num d
    rw [removeFirstChar_of_not_mem _ _ (not_pct_mem_decToString d),
      removeFirstChar_of_not_mem _ _ (not_comma_mem_decToString d)]
    exact parse_decToString d hcanon

/-- Normalizing a record whose gpRate parsed successfully a second time
changes nothing: every derived field is recomputed from the preserved raw
fields, and the gpRate pipeline round-trips through `toString`. -/
lemma summarizeOne_idem_of_num (so : SORecord) (d : Dec)
    (h : (summarizeOne so).gpRate = .num d) :
    summarizeOne (summarizeOne so) = summarizeOne so := by
  have hcanon : decCanon d := by
    have h2 : parseFloatCore (String.mk (removeFirstChar ','
        (removeFirstChar '%' (jsToString (jsOr so.gpRate (.str "0"))).data))).data = .num d := h
    exact parseFloatCore_canon _ d h2
  obtain ⟨f1, f2, f3, f4, f5, f6, f7, f8, f9, f10, f11, f12, f13, f14, f15, f16, f17⟩ := so
  simp only [summarizeOne] at h ⊢
  rw [SORecord.mk.injEq]
  refine ⟨rfl, rfl, rfl, rfl, rfl, rfl, ?_, rfl, rfl, rfl, rfl, rfl, rfl, rfl, rfl, rfl, rfl⟩
  rw [h]
  exact gpRate_pipeline_stable d hcanon

/-- C4 (amended): normalization is idempotent on every batch whose
records have a gpRate field that parses to a number (equivalently, whose
normalized gpRate is not NaN).  For a record with non-numeric gpRate the
first pass yields NaN and the second pass yields 0, so unrestricted
idempotence fails (see the counterexample). -/
theorem summarizeERPData_idem (l : List SORecord)
    (h : ∀ so ∈ l, ∃ d, (summarizeOne so).gpRate = JVal.num d) :
    summarizeERPData (summarizeERPData l) = summarizeERPData l := by
  rw [summarizeERPData, summarizeERPData, List.map_map]
  apply List.map_congr_left
  intro so hso
  obtain ⟨d, hd⟩ := h so hso
  exact summarizeOne_idem_of_num so d hd

/-- C4 witness: the round trip on a concrete batch with gpRate "55.5%". -/
theorem summarizeERPData_idem_witness :
    summarizeERPData (summarizeERPData [{ blankSO with gpRate := .str "55.5%" }]) =
      summarizeERPData [{ blankSO with gpRate := .str "55.5%" }] :=
  summarizeERPData_idem _ (by
    intro so hso
    simp only [List.mem_singleton] at hso
    subst hso
    exact ⟨⟨555, 1⟩, by decide⟩)

/-- C4 counterexample: a record whose raw gpRate is the non-numeric
string "abc" normalizes to gpRate NaN, and normalizing again turns that
NaN into 0 (because NaN is falsy, so `NaN || "0"` re-parses "0"), so
`normalize (normalize x) ≠ normalize x`. -/
theorem summarizeERPData_not_idem_cx :
    summarizeERPData (summarizeERPData [{ blankSO with gpRate := .str "abc" }]) ≠
      summarizeERPData [{ blankSO with gpRate := .str "abc" }] ∧
    (summarizeOne { blankSO with gpRate := .str "abc" }).gpRate = .nan ∧
    (summarizeOne (summarizeOne { blankSO with gpRate := .str "abc" })).gpRate =
      .num ⟨0, 0⟩ := by
  refine ⟨by decide, by decide, by decide⟩

/-- C5 (amended): after normalization, `gpRate` and `amount` are always
of number type (a decimal or NaN, never a string); an absent gpRate
yields 0; "%" and the first "," are stripped before parsing, so
"55.5%" normalizes to the number 55.5.  However a non-numeric gpRate
yields NaN rather than 0, and negative values pass through, so the
values are not always finite non-negative (see the counterexample). -/
theorem summarize_numeric_fields (so : SORecord) :
    ((summarizeOne so).gpRate = .nan ∨ ∃ d, (summarizeOne so).gpRate = .num d) ∧
    ((summarizeOne so).amount = .nan ∨ ∃ d, (summarizeOne so).amount = .num d) ∧
    (so.gpRate = .null → (summarizeOne so).gpRate = .num ⟨0, 0⟩) ∧
    (summarizeOne { blankSO with gpRate := .str "55.5%" }).gpRate = .num ⟨555, 1⟩ ∧
    decVal ⟨555, 1⟩ = 111 / 2 := by
  refine ⟨?_, ?_, ?_, by decide, by norm_num [decVal]⟩
  · rcases parseFloatCore_shape (String.mk (removeFirstChar ','
        (removeFirstChar '%' (jsToString (jsOr so.gpRate (.str "0"))).data))).data with
      h | ⟨d, h, _⟩
    · exact Or.inl h
    · exact Or.inr ⟨d, h⟩
  · exact jsNumber_shape _
  · intro hnull
    show parseFloatJS (String.mk (removeFirstChar ','
      (removeFirstChar '%' (jsToString (jsOr so.gpRate (.str "0"))).data))) = .num ⟨0, 0⟩
    rw [hnull]
    decide

/-- C5 witness: the absent-gpRate default evaluated on a blank record. -/
theorem summarize_numeric_fields_witness :
    (summarizeOne blankSO).gpRate = .num ⟨0, 0⟩ :=
  (summarize_numeric_fields blankSO).2.2.1 rfl

/-- C5 counterexample: gpRate "abc" normalizes to NaN (not a finite
number, not 0), and gpRate "-5%" normalizes to the negative number -5. -/
theorem summarize_gpRate_nan_cx :
    (summarizeOne { blankSO with gpRate := .str "abc" }).gpRate = .nan ∧
    (summarizeOne { blankSO with gpRate := .str "-5%" }).gpRate = .num ⟨-5, 0⟩ ∧
    decVal ⟨-5, 0⟩ < 0 := by
  refine ⟨by decide, by decide, by norm_num [decVal]⟩

/-! ### Query-engine data model

`Order` is the in-memory sales-order record as the query engine reads it.
The three variants read different (raw or derived) field names, so the
structure carries the union.  `none` models an absent (`undefined`) field
or, for the numeric fields, `NaN` (the engine treats the two alike in
every operation it performs on them).  `Except Unit` results model JS
exceptions (`TypeError`/`RangeError` from dereferencing `undefined`). -/

structure Order where
  so_pk : Option String
  so_upk : Option String
  so_number : Option String
  Name_Cust : Option String
  Name_Empl : Option String
  ContractDescription_TransH : Option String
  Memo_TransH : Option String
  Status_TransH : Option String
  DateCreated_TransH : Option String
  division : Option String
  salesRep : Option String
  status : Option String
  date : Option String
  date_created : Option String
  customer : Option String
  gpRate : Option Rat
  gp_rate : Option Rat
  amount : Option Rat
deriving DecidableEq, Repr

/-- An order with every field absent. -/
def blankOrder : Order :=
  ⟨none, none, none, none, none, none, none, none, none, none, none, none,
   none, none, none, none, none, none⟩

/-- A gpThreshold descriptor: `{ operator, value }`. -/
structure Gp where
  operator : String
  value : Rat
deriving DecidableEq, Repr

/-- The validated filter descriptor used by the engine. -/
structure Parsed where
  intent : String
  date : Option String
  year : Option String
  gpThreshold : Option Gp
  customer : Option String
  salesRep : Option String
  status : Option String
  topN : Option Nat
  fields : List String
deriving DecidableEq, Repr

/-- A descriptor with intent "general" and every optional field default. -/
def generalParsed : Parsed :=
  ⟨"general", none, none, none, none, none, none, none, []⟩

/-- The arbitrary structured object produced by the external translator,
before the engine defaults it (a field can be absent / null / falsy). -/
structure RawParsed where
  intent : Option String
  date : Option String
  year : Option String
  gpThreshold : Option Gp
  customer : Option String
  salesRep : Option String
  status : Option String
  topN : Option Nat
  fields : Option (List String)
deriving DecidableEq, Repr

/-- A translator output with every field absent. -/
def blankRaw : RawParsed := ⟨none, none, none, none, none, none, none, none, none⟩

/-- JS truthiness of an optional string (absent and "" are falsy). -/
def strTruthy : Option String → Bool
  | some s => s ≠ ""
  | none => false

/-- JS truthiness of an optional number (absent and 0 are falsy). -/
def natTruthy : Option Nat → Bool
  | some n => n ≠ 0
  | none => false

/-- JS `v || null` for an optional string. -/
def orNullStr (v : Option String) : Option String := if strTruthy v then v else none

/-- JS `v || null` for an optional number. -/
def orNullNat (v : Option Nat) : Option Nat := if natTruthy v then v else none

/-- Descriptor validation, the deterministic tail of
`parseQuestionWithGPT` (src/chat-main/index.js 227-256): the argument is
the translator round trip, `.error` standing for malformed JSON or any
thrown error (the `catch` branch).  On success the code defaults a FALSY
intent to "general" (`if (!parsed.intent)`), defaults `fields` to `[]`,
and `|| null`-defaults the scalar fields. -/
def parseQuestionWithGPT (out : Except Unit RawParsed) : Parsed :=
  match out with
  | .error _ => generalParsed
  | .ok p =>
      { intent := match p.intent with
          | some s => if s = "" then "general" else s
          | none => "general"
        fields := p.fields.getD []
        customer := orNullStr p.customer
        salesRep := orNullStr p.salesRep
        topN := orNullNat p.topN
        year := orNullStr p.year
        date := orNullStr p.date
        gpThreshold := p.gpThreshold
        status := orNullStr p.status }

/-! ### String and date helpers for the filters -/

/-- Prefix test on character lists. -/
def startsWithCh : List Char → List Char → Bool
  | [], _ => true
  | _ :: _, [] => false
  | a :: as, b :: bs => a = b && startsWithCh as bs

/-- Substring test on character lists. -/
def hasInfix : List Char → List Char → Bool
  | [], sub => sub.isEmpty
  | c :: rest, sub => startsWithCh sub (c :: rest) || hasInfix rest sub

/-- JS `toLowerCase` (ASCII, which covers this data). -/
def jsLower (s : String) : String := String.mk (s.data.map Char.toLower)

/-- JS `trim` (the ASCII-whitespace subset that occurs here). -/
def jsTrim (s : String) : String :=
  String.mk ((s.data.dropWhile isWs).reverse.dropWhile isWs).reverse

/-- JS `a.startsWith(b)`. -/
def jsStartsWith (s pre : String) : Bool := startsWithCh pre.data s.data

/-- JS `a.includes(b)`. -/
def jsIncludes (s sub : String) : Bool := hasInfix s.data sub.data

/-- Case-insensitive string equality. -/
def ciEq (a b : String) : Bool := jsLower a = jsLower b

/-- Decimal digit test. -/
def isDigitCh (c : Char) : Bool := (charDigit c).isSome

/-- Whether a string is a plain ISO calendar date `YYYY-MM-DD`.  Strings
of this shape parse in JS as UTC midnight, and `toISOString` gives the
same date back. -/
def isISODate (s : String) : Bool :=
  match s.data with
  | [y1, y2, y3, y4, '-', m1, m2, '-', d1, d2] =>
      isDigitCh y1 && isDigitCh y2 && isDigitCh y3 && isDigitCh y4 &&
      isDigitCh m1 && isDigitCh m2 && isDigitCh d1 && isDigitCh d2 &&
      (let mm := 10 * ((charDigit m1).getD 0) + (charDigit m2).getD 0
       let dd := 10 * ((charDigit d1).getD 0) + (charDigit d2).getD 0
       decide (1 ≤ mm) && decide (mm ≤ 12) && decide (1 ≤ dd) && decide (dd ≤ 31))
  | _ => false

/-- `new Date(s).toISOString().split("T")[0]`: the identity on ISO date
strings; anything else is outside the modelled domain and embedded as the
thrown `RangeError` (`new Date(undefined).toISOString()` throws). -/
def jsDateToISO (s : String) : Except Unit String :=
  if isISODate s then .ok s else .error ()

/-- Year of an ISO date string (first four digits). -/
def isoYear (s : String) : Nat :=
  natFromBE ((s.data.take 4).map (fun c => (charDigit c).getD 0))

/-- Month of an ISO date string (digits five and six), 1-based. -/
def isoMonth (s : String) : Nat :=
  natFromBE (((s.data.drop 5).take 2).map (fun c => (charDigit c).getD 0))

/-- The hard-coded September-2025 question filter of `formatResponse`
(src/chat-main/index.js 331-336): `new Date(o.DateCreated_TransH)` then
`getFullYear() === 2025 && getMonth() === 8` (month 8 is September).
An absent or non-date value gives an Invalid Date whose getters are NaN,
so the comparison is false — no record passes, and nothing throws.
(Runtime clock timezone is modelled as UTC.) -/
def sept2025 (dateCreated : Option String) : Bool :=
  match dateCreated with
  | some s => isISODate s && decide (isoYear s = 2025) && decide (isoMonth s = 9)
  | none => false

/-- JS `parseInt`: optional sign then leading digits; no digits is NaN. -/
def parseIntJS (s : String) : Option Int :=
  let sp := splitSign (s.data.dropWhile isWs)
  let p1 := takeDigits sp.2
  if p1.1 = [] then none
  else some (if sp.1 then -(natFromBE p1.1 : Int) else (natFromBE p1.1 : Int))

deriving instance DecidableEq for Except

/-- `Array.prototype.filter` with a predicate that can throw: the
predicate runs left to right and the first exception aborts the filter. -/
def filterE {α : Type} (f : α → Except Unit Bool) : List α → Except Unit (List α)
  | [] => .ok []
  | x :: xs => do
      let b ← f x
      let r ← filterE f xs
      if b then .ok (x :: r) else .ok r

/-! ### The filter step (claims C2, C10) -/

/-- The customer keyword filter shared by chat-main and part_000
(`(o.Name_Cust || "").toLowerCase().includes(kw) || ...` over
Name_Cust, ContractDescription_TransH, Memo_TransH). -/
def custMatch (kw : String) (o : Order) : Bool :=
  jsIncludes (jsLower (o.Name_Cust.getD "")) (jsLower kw) ||
  jsIncludes (jsLower (o.ContractDescription_TransH.getD "")) (jsLower kw) ||
  jsIncludes (jsLower (o.Memo_TransH.getD "")) (jsLower kw)

/-- The gpThreshold switch: comparisons against a possibly-absent/NaN
gpRate are false; an unknown operator passes every record. -/
def gpMatch (g : Gp) (o : Order) : Bool :=
  if g.operator = ">" then (match o.gpRate with | some a => decide (a > g.value) | none => false)
  else if g.operator = "<" then (match o.gpRate with | some a => decide (a < g.value) | none => false)
  else if g.operator = ">=" then (match o.gpRate with | some a => decide (a ≥ g.value) | none => false)
  else if g.operator = "<=" then (match o.gpRate with | some a => decide (a ≤ g.value) | none => false)
  else if g.operator = "=" then (match o.gpRate with | some a => decide (a = g.value) | none => false)
  else true

/-- `filterOrders` of src/chat-main/index.js 260-290: customer,
gpThreshold, date (`===`, which never dereferences), then year
(`o.DateCreated_TransH.startsWith(parsed.year)`, which throws on an
absent date). -/
def filterOrders (orders : List Order) (p : Parsed) : Except Unit (List Order) :=
  let f1 := if strTruthy p.customer then
      orders.filter (custMatch (p.customer.getD "")) else orders
  let f2 := match p.gpThreshold with
    | some g => f1.filter (gpMatch g)
    | none => f1
  let f3 := if strTruthy p.date then
      f2.filter (fun o => decide (o.DateCreated_TransH = p.date)) else f2
  if strTruthy p.year then
    filterE (fun o =>
      match o.DateCreated_TransH with
      | some s => .ok (jsStartsWith s (p.year.getD ""))
      | none => .error ()) f3
  else .ok f3

/-- `filterOrders` of src/unnamed/part_000 218-250: like chat-main but
with guarded salesRep/status filters on the derived fields and the
date/year filters on `o.date` (`o.date.startsWith` throws on absence,
`o.date === parsed.date` does not). -/
def p0filterOrders (orders : List Order) (p : Parsed) : Except Unit (List Order) :=
  let f1 := if strTruthy p.customer then
      orders.filter (custMatch (p.customer.getD "")) else orders
  let f2 := match p.gpThreshold with
    | some g => f1.filter (gpMatch g)
    | none => f1
  let f3 := if strTruthy p.salesRep then
      f2.filter (fun o => ciEq (o.salesRep.getD "") (p.salesRep.getD "")) else f2
  (if strTruthy p.year then
      filterE (fun o =>
        match o.date with
        | some s => .ok (jsStartsWith s (p.year.getD ""))
        | none => .error ()) f3
    else .ok f3) >>= fun f4 =>
  let f5 := if strTruthy p.date then
      f4.filter (fun o => decide (o.date = p.date)) else f4
  .ok (if strTruthy p.status then
      f5.filter (fun o => ciEq (jsTrim (o.status.getD "")) (jsTrim (p.status.getD ""))) else f5)

/-- `filterOrders` of src/unnamed/part_001 216-225: customer, salesRep
and status call `toLowerCase()` with NO null guard (they throw on an
absent field); the date filter parses `o.date_created` through
`toISOString` (throws on absence); the year filter compares
`new Date(o.date_created).getFullYear()` — on an absent date that is NaN,
so the record is silently dropped, nothing throws. -/
def p1filterOrders (orders : List Order) (p : Parsed) : Except Unit (List Order) :=
  (if strTruthy p.customer then
      filterE (fun o =>
        match o.customer with
        | some c => .ok (jsIncludes (jsLower c) (jsLower (p.customer.getD "")))
        | none => .error ()) orders
    else .ok orders) >>= fun f1 =>
  (if strTruthy p.salesRep then
      filterE (fun o =>
        match o.salesRep with
        | some r => .ok (ciEq r (p.salesRep.getD ""))
        | none => .error ()) f1
    else .ok f1) >>= fun f2 =>
  (if strTruthy p.status then
      filterE (fun o =>
        match o.status with
        | some st => .ok (ciEq st (p.status.getD ""))
        | none => .error ()) f2
    else .ok f2) >>= fun f3 =>
  (if strTruthy p.date then
      filterE (fun o =>
        match o.date_created with
        | some s =>
            jsDateToISO s >>= fun od =>
            .ok (decide (od = p.date.getD ""))
        | none => .error ()) f3
    else .ok f3) >>= fun f4 =>
  .ok (if strTruthy p.year then
      f4.filter (fun o =>
        match o.date_created with
        | some s =>
            isISODate s &&
              (match parseIntJS (p.year.getD "") with
               | some v => decide ((isoYear s : Int) = v)
               | none => false)
        | none => false)
    else f4)

/-! ### Aggregation, grouping and the response model (claims C2, C3, C6, C7) -/

/-- The count branch's sum: `filtered.reduce((sum, o) => sum + (o.amount || 0), 0)`. -/
def sumAmounts (l : List Order) : Rat := l.foldl (fun s o => s + o.amount.getD 0) 0

/-- `Math.max(...xs)`: none models the `-Infinity` JS returns on an
empty argument list. -/
def jsMaxList (l : List Rat) : Option Rat :=
  match l with
  | [] => none
  | x :: xs => some (xs.foldl max x)

/-- The count branch's maximum: `Math.max(...filtered.map(o => o.gpRate || 0))`. -/
def maxGp (l : List Order) : Option Rat := jsMaxList (l.map (fun o => o.gpRate.getD 0))

/-- One `map[k] = (map[k] || 0) + amount` step on the association-list
embedding of a JS object (an absent amount makes the stored value NaN =
`none`; a stored NaN is falsy, so `|| 0` restarts it at 0). -/
def jsAddAmt (stored : Option Rat) (amt : Option Rat) : Option Rat :=
  match amt with
  | none => none
  | some q => some (stored.getD 0 + q)

/-- Update-or-append into the insertion-ordered map. -/
def bump {K : Type} [DecidableEq K] (k : K) (a : Option Rat) :
    List (K × Option Rat) → List (K × Option Rat)
  | [] => [(k, jsAddAmt none a)]
  | (k2, v2) :: rest =>
      if k2 = k then (k2, jsAddAmt v2 a) :: rest else (k2, v2) :: bump k a rest

/-- The generic `forEach(o => { map[key(o)] = (map[key(o)] || 0) + amt(o) })`
accumulation shared by the top-N and monthlyTotals branches. -/
def bumpFold {α K : Type} [DecidableEq K] (key : α → K) (amt : α → Option Rat)
    (l : List α) : List (K × Option Rat) :=
  l.foldl (fun m o => bump (key o) (amt o) m) []

/-- `forEach(o => { map[key(o)] = (map[key(o)] || 0) + o.amount })` —
group the filtered records and sum `amount` per group, in first-encounter
key order.  (JS objects enumerate non-array-index string keys in
insertion order; the validity hypothesis appears on the theorems.) -/
def groupSums (key : Order → Option String) (l : List Order) :
    List (Option String × Option Rat) :=
  bumpFold key (fun o => o.amount) l

/-- Comparator value: the model's total order stand-in for the JS sort
comparator `(a, b) => b[1] - a[1]` (with a NaN sum the JS comparator is
not a consistent ordering and the sort order is unspecified; the theorems
therefore assume numeric amounts, under which `none` never occurs). -/
def sortVal (v : Option Rat) : Rat := v.getD 0

/-- Stable insertion for the descending sort: an element moves past
later elements only when its sum is strictly greater, exactly the stable
behavior of `Array.prototype.sort` with comparator `b[1] - a[1]`. -/
def insDesc {K : Type} (x : K × Option Rat) :
    List (K × Option Rat) → List (K × Option Rat)
  | [] => [x]
  | y :: ys => if sortVal y.2 ≤ sortVal x.2 then x :: y :: ys else y :: insDesc x ys

/-- The stable descending-by-sum sort of `Object.entries(map).sort((a, b) => b[1] - a[1])`. -/
def sortDesc {K : Type} (l : List (K × Option Rat)) : List (K × Option Rat) :=
  l.foldr insDesc []

/-- `parsed.topN || 1`. -/
def jsTopN (t : Option Nat) : Nat :=
  match t with
  | some n => if n = 0 then 1 else n
  | none => 1

/-- `.map(([k, amt], i) => "Top ${i + 1} ...")`: attach the 1-based rank. -/
def rankRows {K : Type} (l : List (K × Option Rat)) : List (Nat × K × Option Rat) :=
  l.enum.map (fun p => (p.1 + 1, p.2))

/-- The whole top-N pipeline of the `topCustomers`/`topDivision`/`topSales`
branches: group, sort descending, `slice(0, topN)`, rank from 1. -/
def topReport (key : Order → Option String) (l : List Order) (t : Option Nat) :
    List (Nat × Option String × Option Rat) :=
  rankRows ((sortDesc (groupSums key l)).take (jsTopN t))

/-- The fixed billable-or-in-progress status allow-list of the
monthlyTotals branch (src/chat-main/index.js 410-417). -/
def validStatuses : List String :=
  ["BILLED", "PARTIALLYBILLED/PARTIALLY DELIVERED", "PARTIALLY DELIVERED",
   "PENDING BILLING", "PENDING DELIVERY", "JO IN-PROCESS"]

/-- `validStatuses.includes(o.Status_TransH)` (exact match; absent is not
in the list). -/
def inValidStatuses (st : Option String) : Bool :=
  match st with
  | some s => validStatuses.contains s
  | none => false

/-- The month bucket key `o.date.slice(0, 7)` of the monthlyTotals
branch (the "YYYY-MM" prefix of an ISO date). -/
def monthKey (o : Order) : String := String.mk ((o.date.getD "").data.take 7)

/-- One iteration of the monthlyTotals forEach (src/chat-main/index.js
419-426): skip on a falsy `o.date`, skip on a status outside the
allow-list, then dereference `o.salesRep.toLowerCase()` WITHOUT a guard
(throws on an absent salesRep), and accumulate into the month bucket
`o.date.slice(0, 7)`. -/
def monthlyStep (rep : String) (m : List (String × Option Rat)) (o : Order) :
    Except Unit (List (String × Option Rat)) :=
  if ¬ strTruthy o.date then .ok m
  else if ¬ inValidStatuses o.Status_TransH then .ok m
  else match o.salesRep with
    | none => .error ()
    | some r =>
        if jsLower r ≠ jsLower rep then .ok m
        else .ok (bump (monthKey o) o.amount m)

/-- The monthlyTotals accumulation over the filtered set. -/
def monthlyFold (rep : String) (l : List Order) :
    Except Unit (List (String × Option Rat)) :=
  l.foldlM (monthlyStep rep) []

/-- Stable insertion for the ascending-by-month sort
(`.sort(([a], [b]) => a.localeCompare(b))`; for ISO year-month keys
localeCompare agrees with ordinal string order). -/
def insAscKey (x : String × Option Rat) :
    List (String × Option Rat) → List (String × Option Rat)
  | [] => [x]
  | y :: ys => if x.1 ≤ y.1 then x :: y :: ys else y :: insAscKey x ys

/-- Ascending sort of the month buckets. -/
def sortAscKey (l : List (String × Option Rat)) : List (String × Option Rat) :=
  l.foldr insAscKey []

/-- Key enumeration order of the JS object built by the grouping
forEach: keep a key the first time it is seen, drop repeats. -/
def occStep {K : Type} [DecidableEq K] (acc : List K) (k : K) : List K :=
  if k ∈ acc then acc else acc ++ [k]

/-- The first-occurrence key list of a key sequence — the order
`Object.entries` enumerates the grouped object (non-array-index string
keys). -/
def firstOccKeys {K : Type} [DecidableEq K] (ks : List K) : List K :=
  ks.foldl occStep []

/-- Reading `map[k]` from the association-list embedding of the JS
object: `none` is an absent key. -/
def lookupG {K : Type} [DecidableEq K] (k : K) (m : List (K × Option Rat)) :
    Option (Option Rat) :=
  (m.find? (fun e => decide (e.1 = k))).map (fun e => e.2)

/-- The sum of `amt` over the records of group `k` — what the bucket of
`k` must hold when every summed value is numeric. -/
def groupValG {α K : Type} [DecidableEq K] (key : α → K) (amt : α → Option Rat)
    (k : K) (l : List α) : Rat :=
  ((l.filter (fun o => decide (key o = k))).map (fun o => (amt o).getD 0)).sum

/-- The record test the monthlyTotals forEach encodes by early returns:
truthy date, allow-listed status, case-insensitive salesRep match
(src/chat-main/index.js 419-421). -/
def monthlyQualifies (rep : String) (o : Order) : Bool :=
  strTruthy o.date && (inValidStatuses o.Status_TransH &&
    decide (jsLower (o.salesRep.getD "") = jsLower rep))

/-- The monthly grouping as a pure function of the qualifying records —
what `monthlyFold` computes when no record makes it throw. -/
def monthlyPure (rep : String) (l : List Order) : List (String × Option Rat) :=
  bumpFold monthKey (fun o => o.amount) (l.filter (monthlyQualifies rep))

/-- The verified shape of one top-N pipeline stage on the filtered set
`F` with effective top count `n`: the sorted group list is descending by
summed amount; the sort is stable (each equal-sum slice keeps the group
order, which is first-encounter order); the group list has one entry per
distinct key in first-encounter order; with numeric amounts each bucket
holds its group's sum; the sliced list has `min n #groups` rows; and the
rendered ranks are `1, 2, ...`. -/
def TopSpec (key : Order → Option String) (F : List Order) (n : Nat) : Prop :=
  (sortDesc (groupSums key F)).Sorted (fun a b => sortVal b.2 ≤ sortVal a.2) ∧
  (∀ v : Rat, (sortDesc (groupSums key F)).filter (fun e => decide (sortVal e.2 = v)) =
      (groupSums key F).filter (fun e => decide (sortVal e.2 = v))) ∧
  (groupSums key F).map Prod.fst = firstOccKeys (F.map key) ∧
  ((∀ o ∈ F, o.amount.isSome) →
    ∀ e ∈ groupSums key F, e.2 = some (groupValG key (fun o => o.amount) e.1 F)) ∧
  ((sortDesc (groupSums key F)).take n).length = min n ((F.map key).toFinset.card) ∧
  (rankRows ((sortDesc (groupSums key F)).take n)).map Prod.fst =
    List.range' 1 ((sortDesc (groupSums key F)).take n).length

/-- The answer produced by `formatResponse`, abstracted from its rendered
string: each constructor records which branch answered and the exact data
interpolated into the text (the peso/percent formatting itself is what
the spec leaves to the locale library and is not re-modelled).
`general` and `fallback` delegate to the external language model —
`fallback` with `filtered.slice(0, 200)` as context.  In `countR`,
`highestGp = none` is the `-Infinity` of `Math.max()`, rendered
"-Infinity%".  `monthlyNoData` is the explicit no-data message. -/
inductive Resp where
  | general
  | zeroOrders
  | countR (totalOrders : Nat) (totalAmount : Rat) (highestGp : Option Rat)
  | listR (rows : List Order)
  | sampleR (row : Option Order)
  | topR (label : String) (rows : List (Nat × Option String × Option Rat))
  | monthlyR (rows : List (String × Option Rat))
  | monthlyNoData (rep : String) (year : String)
  | fallback (context : List Order)
deriving DecidableEq, Repr

/-- The filter block inside `formatResponse` (src/chat-main/index.js
308-342), applied before intent dispatch: salesRep (guarded), year
(`o.DateCreated_TransH.startsWith`, unguarded), date (both sides through
`new Date(...).toISOString()`), the hard-coded "september 2025" question
filter, then status (guarded, trimmed). -/
def secondaryFilter (orders : List Order) (p : Parsed) (question : String) :
    Except Unit (List Order) :=
  let f1 := if strTruthy p.salesRep then
      orders.filter (fun o => ciEq (o.Name_Empl.getD "") (p.salesRep.getD ""))
    else orders
  (if strTruthy p.year then
      filterE (fun o =>
        match o.DateCreated_TransH with
        | some s => .ok (jsStartsWith s (p.year.getD ""))
        | none => .error ()) f1
    else .ok f1) >>= fun f2 =>
  (if strTruthy p.date then
      jsDateToISO (p.date.getD "") >>= fun target =>
      filterE (fun o =>
        match o.DateCreated_TransH with
        | some s =>
            jsDateToISO s >>= fun od =>
            .ok (decide (od = target))
        | none => .error ()) f2
    else .ok f2) >>= fun f3 =>
  let f4 := if jsIncludes (jsLower question) "september 2025" then
      f3.filter (fun o => sept2025 o.DateCreated_TransH)
    else f3
  .ok (if strTruthy p.status then
      f4.filter (fun o => ciEq (jsTrim (o.Status_TransH.getD "")) (jsTrim (p.status.getD "")))
    else f4)

/-- `formatResponse` (src/chat-main/index.js 295-446): general intent
delegates the raw question; an empty input set short-circuits to the
fixed zero-orders message BEFORE any further filtering or dispatch; then
the secondary filters run and the intent dispatches; an unrecognized
intent (or monthlyTotals missing year/salesRep) falls back to the
language model with `filtered.slice(0, 200)` as context. -/
def formatResponse (orders : List Order) (p : Parsed) (question : String) :
    Except Unit Resp :=
  if p.intent = "general" then .ok .general
  else if orders.isEmpty then .ok .zeroOrders
  else
    secondaryFilter orders p question >>= fun filtered =>
    if p.intent = "count" then
      .ok (.countR filtered.length (sumAmounts filtered) (maxGp filtered))
    else if p.intent = "list" then .ok (.listR filtered)
    else if p.intent = "sample" then .ok (.sampleR filtered.head?)
    else if p.intent = "topCustomers" then
      .ok (.topR "Customer" (topReport (fun o => o.Name_Cust) filtered p.topN))
    else if p.intent = "topDivision" then
      .ok (.topR "Division" (topReport (fun o => o.division) filtered p.topN))
    else if p.intent = "topSales" then
      .ok (.topR "Sales Personnel" (topReport (fun o => o.salesRep) filtered p.topN))
    else if p.intent = "monthlyTotals" ∧ strTruthy p.year ∧ strTruthy p.salesRep then
      monthlyFold (p.salesRep.getD "") filtered >>= fun m =>
      let rows := sortAscKey m
      if rows.isEmpty then .ok (.monthlyNoData (p.salesRep.getD "") (p.year.getD ""))
      else .ok (.monthlyR rows)
    else .ok (.fallback (filtered.take 200))

/-- The full filter pipeline a /chatbot request applies before the answer
is computed: `filterOrders` (src/chat-main/index.js 488) followed by the
filters inside `formatResponse`. -/
def chatbotFiltered (orders : List Order) (p : Parsed) (question : String) :
    Except Unit (List Order) :=
  filterOrders orders p >>= fun a =>
  secondaryFilter a p question

/-- Result of `getSalesOrdersByDateAndStatus` (src/chat-main/index.js
155-191); `highest_gp_rate = none` models the rendered "-Infinity%",
which the empty branch HARDCODES. -/
structure GSResult where
  total_sales_orders : Nat
  total_amount : Rat
  highest_gp_rate : Option Rat
  orders : List Order
deriving DecidableEq, Repr

/-- `getSalesOrdersByDateAndStatus`: normalize the target date through
`new Date(...).toISOString()` and the status through trim+lowercase,
filter on equality of both (dereferencing `order.date_created` and
`order.status` without guards), and special-case the empty result — with
`highest_gp_rate: "-Infinity%"` spelled out in the empty branch. -/
def getSalesOrdersByDateAndStatus (salesOrders : List Order)
    (targetDate targetStatus : String) : Except Unit GSResult :=
  jsDateToISO targetDate >>= fun dateStr =>
  filterE (fun o =>
      match o.date_created with
      | none => .error ()
      | some s =>
          jsDateToISO s >>= fun od =>
          match o.status with
          | none => .error ()
          | some st =>
              .ok (decide (jsLower od = jsLower (jsTrim dateStr)) &&
                ciEq (jsTrim st) (jsTrim targetStatus))) salesOrders >>= fun filtered =>
  if filtered.length = 0 then
    .ok ⟨0, 0, none, []⟩
  else
    .ok ⟨filtered.length,
      filtered.foldl (fun s o => s + o.amount.getD 0) 0,
      jsMaxList (filtered.map (fun o => o.gp_rate.getD 0)),
      filtered⟩

/-! ### Synchronizer: merge (claim C1) and pagination (claim C8) -/

/-- The in-memory effect of `mergeNewData` (src/chat-main/index.js
104-152).  After the per-record SQL upserts, line 143 runs
`allERPData = newData.map(row => ({...row, gpRate: Number(row.gpRate),
amount: Number(row.amount)}))` — the previous in-memory array is
discarded and REPLACED by the new batch.  (`Number` of an
already-numeric or absent field is the identity in the `Option Rat`
embedding: `Number(undefined)` is NaN and both are `none`.) -/
def mergeNewData (allERPData newData : List Order) : List Order :=
  newData.map (fun row => { row with gpRate := row.gpRate, amount := row.amount })

/-- The in-memory effect of `mergeNewData` in src/unnamed/part_001
109-116: build the set of identities already present, keep only batch
records whose `so_pk` is new, and append them. -/
def p1mergeNewData (allERPData newData : List Order) : List Order :=
  allERPData ++ newData.filter (fun n => ¬ (allERPData.map (fun o => o.so_pk)).contains n.so_pk)

/-- The in-memory effect of `mergeNewData` in src/unnamed/part_000
147-150: keep the old records whose `so_upk` does not occur in the batch,
then append the whole batch. -/
def p0mergeNewData (allERPData newData : List Order) : List Order :=
  allERPData.filter (fun old => ¬ newData.any (fun n => n.so_upk = old.so_upk)) ++ newData

/-- One upstream response: a parsed JSON body whose `data` field may be
absent, or a fetch failure (the `catch` in `callERP` turns it into
`{ data: [] }`). -/
inductive ERPResp (A : Type) where
  | json (data : Option (List (List A)))
  | fetchFail
deriving DecidableEq, Repr

/-- The `data` field `callERP` hands back (`{ data: [] }` on failure). -/
def callERPData {A : Type} (r : ERPResp A) : Option (List (List A)) :=
  match r with
  | .json d => d
  | .fetchFail => some []

/-- `res.data?.[0] || []`: the page extracted from one response. -/
def pageOf {A : Type} (resp : Nat → ERPResp A) (offset : Nat) : List A :=
  match callERPData (resp offset) with
  | some pages => pages.headD []
  | none => []

/-- The `while (true)` pagination loop of `fetchAllSalesOrders`
(src/chat-main/index.js 70-84), fuelled: concatenate pages of size 500
and stop at the first page shorter than 500.  `none` means the fuel ran
out before a short page appeared (the JS loop would still be running). -/
def fetchLoop {A : Type} (resp : Nat → ERPResp A) : Nat → Nat → List A → Option (List A)
  | 0, _, _ => none
  | fuel + 1, offset, acc =>
      if (pageOf resp offset).length < 500 then some (acc ++ pageOf resp offset)
      else fetchLoop resp fuel (offset + 500) (acc ++ pageOf resp offset)

/-- `fetchAllSalesOrders` over an upstream modelled as a function from
offset to response. -/
def fetchAllSalesOrders {A : Type} (resp : Nat → ERPResp A) (fuel : Nat) :
    Option (List A) :=
  fetchLoop resp fuel 0 []

/-! ### filterE facts -/

lemma filterE_ok {A : Type} (f : A → Except Unit Bool) (g : A → Bool) :
    ∀ l : List A, (∀ x ∈ l, f x = .ok (g x)) → filterE f l = .ok (l.filter g) := by
  intro l
  induction l with
  | nil => intro _; rfl
  | cons x xs ih =>
      intro h
      have hx := h x (by simp)
      have hxs := ih (fun y hy => h y (by simp [hy]))
      rw [filterE, hx, hxs, List.filter_cons]
      cases hgb : g x
      · rfl
      · rfl

lemma ok_bind {E A B : Type} (a : A) (f : A → Except E B) :
    (Except.ok a >>= f) = f a := rfl

lemma filterE_error_head {A : Type} (f : A → Except Unit Bool) (x : A) (xs : List A)
    (h : f x = .error ()) : filterE f (x :: xs) = .error () := by
  rw [filterE, h]
  rfl

/-! ### Claim C9: descriptor validation -/

/-- C9 (amended): the validation layer never fails — a malformed or
thrown translator round trip yields the all-default general descriptor,
and on a parsed object every recognized optional field is defaulted
(null for falsy scalars, the empty sequence for `fields`).  A MISSING or
empty intent becomes "general", but an unrecognized non-empty intent
string is preserved as-is (unknown intents are only handled later by the
fallback branch of `formatResponse`), contrary to the claim. -/
theorem parseQuestionWithGPT_defaults :
    parseQuestionWithGPT (.error ()) = generalParsed ∧
    (∀ r : RawParsed,
      (parseQuestionWithGPT (.ok r)).intent =
        (match r.intent with
          | some s => if s = "" then "general" else s
          | none => "general") ∧
      (parseQuestionWithGPT (.ok r)).fields = r.fields.getD [] ∧
      (parseQuestionWithGPT (.ok r)).customer = orNullStr r.customer ∧
      (parseQuestionWithGPT (.ok r)).salesRep = orNullStr r.salesRep ∧
      (parseQuestionWithGPT (.ok r)).status = orNullStr r.status ∧
      (parseQuestionWithGPT (.ok r)).date = orNullStr r.date ∧
      (parseQuestionWithGPT (.ok r)).year = orNullStr r.year ∧
      (parseQuestionWithGPT (.ok r)).topN = orNullNat r.topN ∧
      (parseQuestionWithGPT (.ok r)).gpThreshold = r.gpThreshold) ∧
    (∀ r : RawParsed, (r.intent = none ∨ r.intent = some "") →
      (parseQuestionWithGPT (.ok r)).intent = "general") := by
  refine ⟨rfl, fun r => ⟨rfl, rfl, rfl, rfl, rfl, rfl, rfl, rfl, rfl⟩, fun r h => ?_⟩
  rcases h with h | h <;> simp [parseQuestionWithGPT, h]

/-- C9 witness. -/
theorem parseQuestionWithGPT_defaults_witness :
    (parseQuestionWithGPT (.ok blankRaw)).intent = "general" :=
  parseQuestionWithGPT_defaults.2.2 blankRaw (Or.inl rfl)

/-- C9 counterexample: an unrecognized intent string from the translator
is NOT classified as "general" — it is passed through and later hits the
fallback branch, observably different from the general branch (the
fallback call receives the filtered records as context). -/
theorem parseQuestionWithGPT_unrecognized_cx :
    (parseQuestionWithGPT (.ok { blankRaw with intent := some "bogus" })).intent = "bogus" ∧
    ("bogus" : String) ≠ "general" := by
  exact ⟨rfl, by decide⟩

lemma mem_condFilter {A : Type} {x : A} {l : List A} {f : A → Bool} {c : Prop}
    [Decidable c] (hx : x ∈ (if c then l.filter f else l)) : x ∈ l := by
  split at hx
  · exact (List.mem_filter.mp hx).1
  · exact hx

/-! ### Claim C10: unguarded dereferences in the filter step -/

/-- C10 (amended): the guard analysis of the three filterOrders
variants.  (1) chat-main: a year constraint dereferences
`o.DateCreated_TransH.startsWith` and throws on the first record with an
absent date.  (2) part_001: the customer filter calls
`o.customer.toLowerCase()` with no guard and throws on an absent
customer (salesRep and status behave the same way).  (3) part_001: the
YEAR constraint does NOT throw on an absent date — `new
Date(undefined).getFullYear()` is NaN, the comparison is false, and the
record is silently dropped.  (4)/(5): with every record carrying the
dereferenced fields as strings (dates as ISO dates for part_001), no
filter throws.  The chat-main DATE constraint (`===`) never
dereferences at all — see the counterexample. -/
theorem filterOrders_guard_analysis :
    (∀ (o : Order) (rest : List Order) (p : Parsed),
      strTruthy p.year = true → o.DateCreated_TransH = none →
      strTruthy p.customer = false → p.gpThreshold = none → strTruthy p.date = false →
      filterOrders (o :: rest) p = .error ()) ∧
    (∀ (o : Order) (rest : List Order) (p : Parsed),
      strTruthy p.customer = true → o.customer = none →
      p1filterOrders (o :: rest) p = .error ()) ∧
    (∀ (l : List Order) (p : Parsed),
      strTruthy p.customer = false → strTruthy p.salesRep = false →
      strTruthy p.status = false → strTruthy p.date = false → strTruthy p.year = true →
      p1filterOrders l p = .ok (l.filter (fun o =>
        match o.date_created with
        | some s => isISODate s &&
            (match parseIntJS (p.year.getD "") with
             | some v => decide ((isoYear s : Int) = v)
             | none => false)
        | none => false))) ∧
    (∀ (orders : List Order) (p : Parsed),
      (∀ o ∈ orders, o.DateCreated_TransH.isSome) →
      ∃ l, filterOrders orders p = .ok l) ∧
    (∀ (orders : List Order) (p : Parsed),
      (∀ o ∈ orders, o.customer.isSome ∧ o.salesRep.isSome ∧ o.status.isSome ∧
        ∃ s, o.date_created = some s ∧ isISODate s = true) →
      ∃ l, p1filterOrders orders p = .ok l) := by
  refine ⟨?_, ?_, ?_, ?_, ?_⟩
  · intro o rest p hy hdc hc hg hd
    rw [filterOrders]
    simp only [hc, hg, hd, hy, Bool.false_eq_true, if_false, if_true]
    exact filterE_error_head _ o rest (by rw [hdc])
  · intro o rest p hc hcust
    rw [p1filterOrders]
    simp only [hc, if_true]
    rw [filterE_error_head _ o rest (h := by rw [hcust])]
    rfl
  · intro l p hc hsr hst hd hy
    rw [p1filterOrders]
    simp only [hc, hsr, hst, hd, hy, Bool.false_eq_true, if_false, if_true, ok_bind]
  · intro orders p h
    rw [filterOrders]
    by_cases hy : strTruthy p.year
    · simp only [hy, if_true]
      refine ⟨_, filterE_ok _ (fun o =>
        match o.DateCreated_TransH with
        | some s => jsStartsWith s (p.year.getD "")
        | none => false) _ ?_⟩
      intro x hx
      have hx1 : x ∈ orders := by
        have hx2 := mem_condFilter hx
        rcases hg : p.gpThreshold with _ | g
        · rw [hg] at hx2
          exact mem_condFilter hx2
        · rw [hg] at hx2
          exact mem_condFilter (List.mem_filter.mp hx2).1
      obtain ⟨s, hs⟩ := Option.isSome_iff_exists.mp (h x hx1)
      simp only [hs]
    · simp only [hy, Bool.false_eq_true, if_false]
      exact ⟨_, rfl⟩
  · intro orders p h
    have h1 : ∃ l1, (if strTruthy p.customer = true then
        filterE (fun o =>
          match o.customer with
          | some c => Except.ok (jsIncludes (jsLower c) (jsLower (p.customer.getD "")))
          | none => Except.error ()) orders
        else .ok orders) = .ok l1 ∧ ∀ x ∈ l1, x ∈ orders := by
      by_cases hc : strTruthy p.customer
      · rw [if_pos hc]
        refine ⟨_, filterE_ok _ (fun o =>
          match o.customer with
          | some c => jsIncludes (jsLower c) (jsLower (p.customer.getD ""))
          | none => false) _ ?_, ?_⟩
        · intro x hx
          obtain ⟨c, hcx⟩ := Option.isSome_iff_exists.mp (h x hx).1
          simp only [hcx]
        · intro x hx
          exact (List.mem_filter.mp hx).1
      · rw [if_neg hc]
        exact ⟨orders, rfl, fun x hx => hx⟩
    obtain ⟨l1, hl1, hsub1⟩ := h1
    have h2 : ∃ l2, (if strTruthy p.salesRep = true then
        filterE (fun o =>
          match o.salesRep with
          | some r => Except.ok (ciEq r (p.salesRep.getD ""))
          | none => Except.error ()) l1
        else .ok l1) = .ok l2 ∧ ∀ x ∈ l2, x ∈ orders := by
      by_cases hc : strTruthy p.salesRep
      · rw [if_pos hc]
        refine ⟨_, filterE_ok _ (fun o =>
          match o.salesRep with
          | some r => ciEq r (p.salesRep.getD "")
          | none => false) _ ?_, ?_⟩
        · intro x hx
          obtain ⟨r, hrx⟩ := Option.isSome_iff_exists.mp (h x (hsub1 x hx)).2.1
          simp only [hrx]
        · intro x hx
          exact hsub1 x (List.mem_filter.mp hx).1
      · rw [if_neg hc]
        exact ⟨l1, rfl, hsub1⟩
    obtain ⟨l2, hl2, hsub2⟩ := h2
    have h3 : ∃ l3, (if strTruthy p.status = true then
        filterE (fun o =>
          match o.status with
          | some st => Except.ok (ciEq st (p.status.getD ""))
          | none => Except.error ()) l2
        else .ok l2) = .ok l3 ∧ ∀ x ∈ l3, x ∈ orders := by
      by_cases hc : strTruthy p.status
      · rw [if_pos hc]
        refine ⟨_, filterE_ok _ (fun o =>
          match o.status with
          | some st => ciEq st (p.status.getD "")
          | none => false) _ ?_, ?_⟩
        · intro x hx
          obtain ⟨st, hstx⟩ := Option.isSome_iff_exists.mp (h x (hsub2 x hx)).2.2.1
          simp only [hstx]
        · intro x hx
          exact hsub2 x (List.mem_filter.mp hx).1
      · rw [if_neg hc]
        exact ⟨l2, rfl, hsub2⟩
    obtain ⟨l3, hl3, hsub3⟩ := h3
    have h4 : ∃ l4, (if strTruthy p.date = true then
        filterE (fun o =>
          match o.date_created with
          | some s => jsDateToISO s >>= fun od => Except.ok (decide (od = p.date.getD ""))
          | none => Except.error ()) l3
        else .ok l3) = .ok l4 ∧ ∀ x ∈ l4, x ∈ orders := by
      by_cases hc : strTruthy p.date
      · rw [if_pos hc]
        refine ⟨_, filterE_ok _ (fun o =>
          match o.date_created with
          | some s => decide (s = p.date.getD "")
          | none => false) _ ?_, ?_⟩
        · intro x hx
          obtain ⟨_, _, _, s, hsx, hiso⟩ := h x (hsub3 x hx)
          simp only [hsx, jsDateToISO, hiso, if_true, ok_bind]
        · intro x hx
          exact hsub3 x (List.mem_filter.mp hx).1
      · rw [if_neg hc]
        exact ⟨l3, rfl, hsub3⟩
    obtain ⟨l4, hl4, _⟩ := h4
    have hfin : p1filterOrders orders p = .ok (if strTruthy p.year = true then
        l4.filter (fun o =>
          match o.date_created with
          | some s =>
              isISODate s &&
                (match parseIntJS (p.year.getD "") with
                 | some v => decide ((isoYear s : Int) = v)
                 | none => false)
          | none => false)
      else l4) := by
      rw [p1filterOrders, hl1, ok_bind, hl2, ok_bind, hl3, ok_bind, hl4, ok_bind]
    exact ⟨_, hfin⟩

/-! ### Sample records shared by the concrete witnesses below -/

/-- A sales order by Alice for Acme (March 15, 2024). -/
def soA : Order := { blankOrder with
  so_pk := some "1"
  so_upk := some "1"
  Name_Cust := some "Acme"
  Name_Empl := some "Alice"
  salesRep := some "Alice"
  customer := some "Acme"
  division := some "D1"
  amount := some 1000
  gpRate := some 60
  gp_rate := some 60
  DateCreated_TransH := some "2024-03-15"
  date := some "2024-03-15"
  date_created := some "2024-03-15"
  Status_TransH := some "BILLED"
  status := some "BILLED" }

/-- A sales order by Bob for Acme (March 2, 2024). -/
def soB : Order := { blankOrder with
  so_pk := some "2"
  so_upk := some "2"
  Name_Cust := some "Acme"
  Name_Empl := some "Bob"
  salesRep := some "Bob"
  customer := some "Acme"
  division := some "D2"
  amount := some 500
  gpRate := some 40
  gp_rate := some 40
  DateCreated_TransH := some "2024-03-02"
  date := some "2024-03-02"
  date_created := some "2024-03-02"
  Status_TransH := some "BILLED"
  status := some "BILLED" }

/-- C10 witness: chat-main's year filter at an absent date throws, and
part_001's customer filter at an absent customer throws; with the fields
present everything returns ok. -/
theorem filterOrders_guard_analysis_witness :
    filterOrders [blankOrder] { generalParsed with year := some "2024" } = .error () ∧
    p1filterOrders [blankOrder] { generalParsed with customer := some "acme" } = .error () ∧
    (∃ l, filterOrders [soA] { generalParsed with year := some "2024" } = .ok l) ∧
    (∃ l, p1filterOrders [soA] { generalParsed with customer := some "acme" } = .ok l) :=
  ⟨filterOrders_guard_analysis.1 blankOrder []
      { generalParsed with year := some "2024" } (by decide) rfl rfl rfl rfl,
   filterOrders_guard_analysis.2.1 blankOrder []
      { generalParsed with customer := some "acme" } (by decide) rfl,
   filterOrders_guard_analysis.2.2.2.1 [soA]
      { generalParsed with year := some "2024" } (by decide),
   filterOrders_guard_analysis.2.2.2.2 [soA]
      { generalParsed with customer := some "acme" } (by decide)⟩

/-- C10 counterexample: the claim says a query supplying a year or DATE
constraint throws on a record with an absent dateCreated; but chat-main's
date filter is a plain `===` that never dereferences — the record is
silently filtered out and the result is `ok []`, not a throw.  (part_001's
year filter likewise silently drops such a record, see conjunct 3 of the
amended theorem.) -/
theorem filterOrders_date_no_throw_cx :
    filterOrders [blankOrder] { generalParsed with date := some "2024-03-15" } = .ok [] ∧
    (Except.ok ([] : List Order) ≠ (.error () : Except Unit (List Order))) := by
  exact ⟨by decide, by decide⟩

/-! ### Claim C3: the count intent -/

/-- C3 (amended): for the count intent the answer reports the filtered
set's cardinality, the sum of `amount` and the maximum `gpRate`; an
EMPTY input set short-circuits to the fixed zero-message; but when the
input set is nonempty and the secondary filters empty it, the count
branch runs `Math.max()` over nothing and the highest-GP value is
`-Infinity` (modelled `none`, rendered "-Infinity%"), with zero count
and zero amount — not a defined finite highest-GP value. -/
theorem count_result (orders : List Order) (p : Parsed) (question : String)
    (F : List Order) (hint : p.intent = "count")
    (hsec : secondaryFilter orders p question = .ok F) :
    formatResponse orders p question =
      .ok (if orders.isEmpty then Resp.zeroOrders
           else .countR F.length (sumAmounts F) (maxGp F)) ∧
    (F = [] → sumAmounts F = 0 ∧ maxGp F = none) := by
  constructor
  · rw [formatResponse, hint, if_neg (by decide)]
    by_cases he : orders.isEmpty
    · rw [if_pos he, if_pos he]
    · rw [if_neg he, if_neg he, hsec, ok_bind, if_pos rfl]
  · rintro rfl
    exact ⟨rfl, rfl⟩

/-- C3 witness: a nonempty set whose secondary filtering (salesRep Bob
against a record by Alice) leaves nothing. -/
theorem count_result_witness :
    formatResponse [soA] { generalParsed with intent := "count", salesRep := some "Bob" } "" =
      .ok (if ([soA] : List Order).isEmpty then Resp.zeroOrders
           else .countR ([] : List Order).length (sumAmounts []) (maxGp [])) :=
  (count_result [soA] { generalParsed with intent := "count", salesRep := some "Bob" } ""
    [] rfl (by decide)).1

/-- C3 counterexample: with a nonempty input set and an empty filtered
set, the count answer is `countR 0 0 none` — the highest-GP slot holds
`Math.max()`'s `-Infinity` (rendered "-Infinity%"), not a defined
value; and even the dedicated date/status helper HARDCODES
"-Infinity%" in its explicit empty branch. -/
theorem count_empty_neg_infinity_cx :
    formatResponse [soA] { generalParsed with intent := "count", salesRep := some "Bob" } "" =
      .ok (.countR 0 0 none) ∧
    (∀ v : Rat, (none : Option Rat) ≠ some v) ∧
    getSalesOrdersByDateAndStatus [] "2024-03-15" "BILLED" = .ok ⟨0, 0, none, []⟩ := by
  refine ⟨by decide, ?_, by decide⟩
  exact fun v h => Option.noConfusion h

/-! ### Claim C1: the in-memory merge -/

/-- C1: evaluation at the failing input.  chat-main's `mergeNewData`
REPLACES the in-memory array with the (coerced) new batch: after merging
`[soB]` into a memory holding `[soA]`, the previously merged `soA` is
gone — with the per-year preload loop this leaves only the last year in
memory.  The part_001 variant merges correctly at the same input. -/
theorem mergeNewData_drops_previous :
    mergeNewData [soA] [soB] = [soB] ∧
    soA ∉ mergeNewData [soA] [soB] ∧
    soA ≠ soB ∧
    p1mergeNewData [soA] [soB] = [soA, soB] ∧
    p1mergeNewData [soA] [soA, soB] = [soA, soB] := by
  refine ⟨by decide, by decide, by decide, by decide, by decide⟩

/-! ### Claim C8: pagination -/

lemma fetchLoop_spec {A : Type} (resp : Nat → ERPResp A) :
    ∀ (k base : Nat) (acc : List A) (fuel : Nat),
      (pageOf resp (base + 500 * k)).length < 500 →
      (∀ j < k, 500 ≤ (pageOf resp (base + 500 * j)).length) →
      k + 1 ≤ fuel →
      fetchLoop resp fuel base acc =
        some (acc ++
          ((List.range (k + 1)).map (fun j => pageOf resp (base + 500 * j))).flatten) := by
  intro k
  induction k with
  | zero =>
      intro base acc fuel hshort _ hfuel
      obtain ⟨fuel2, rfl⟩ : ∃ f, fuel = f + 1 := ⟨fuel - 1, by omega⟩
      rw [fetchLoop]
      simp only [Nat.mul_zero, Nat.add_zero] at hshort
      rw [if_pos hshort]
      rw [show List.range 1 = [0] from rfl]
      simp
  | succ k ih =>
      intro base acc fuel hshort hfull hfuel
      obtain ⟨fuel2, rfl⟩ : ∃ f, fuel = f + 1 := ⟨fuel - 1, by omega⟩
      rw [fetchLoop]
      have hfull0 := hfull 0 (by omega)
      simp only [Nat.mul_zero, Nat.add_zero] at hfull0
      rw [if_neg (by omega)]
      rw [ih (base + 500) (acc ++ pageOf resp base) fuel2
        (by rw [show base + 500 + 500 * k = base + 500 * (k + 1) from by ring]; exact hshort)
        (by intro j hj
            rw [show base + 500 + 500 * j = base + 500 * (j + 1) from by ring]
            exact hfull (j + 1) (by omega))
        (by omega)]
      have hmaps : (List.range (k + 1 + 1)).map (fun j => pageOf resp (base + 500 * j)) =
          pageOf resp base ::
            (List.range (k + 1)).map (fun j => pageOf resp (base + 500 + 500 * j)) := by
        rw [List.range_succ_eq_map, List.map_cons, List.map_map]
        congr 1
        apply List.map_congr_left
        intro j hj
        simp only [Function.comp]
        congr 1
        omega
      rw [hmaps]
      simp [List.append_assoc]

/-- C8 (confirmed): `fetchAllSalesOrders` pages at fixed size 500,
terminates at the first short page (index `k`), and returns the
concatenation of pages 0..k including the short one; a fetch failure (or
a malformed body) yields an empty page — which is short — instead of an
exception, so the outer per-year loop is never aborted. -/
theorem fetchAllSalesOrders_spec {A : Type} (resp : Nat → ERPResp A) (k fuel : Nat)
    (hshort : (pageOf resp (500 * k)).length < 500)
    (hfull : ∀ j < k, 500 ≤ (pageOf resp (500 * j)).length)
    (hfuel : k + 1 ≤ fuel) :
    fetchAllSalesOrders resp fuel =
      some (((List.range (k + 1)).map (fun j => pageOf resp (500 * j))).flatten) ∧
    (∀ (resp2 : Nat → ERPResp A) (off : Nat), resp2 off = .fetchFail →
      pageOf resp2 off = [] ∧ (pageOf resp2 off).length < 500) := by
  constructor
  · have h := fetchLoop_spec resp k 0 [] fuel
      (by simpa using hshort) (by simpa using hfull) hfuel
    rw [fetchAllSalesOrders, h]
    simp
  · intro resp2 off hoff
    rw [pageOf, hoff]
    exact ⟨rfl, by simp [callERPData]⟩

/-- C8 witness: a source whose page 0 is full (500 rows) and whose page
at offset 500 fails to fetch, hence is empty and short: the fetch
returns the 500 rows of page 0 concatenated with the empty page. -/
theorem fetchAllSalesOrders_spec_witness :
    fetchAllSalesOrders
        (fun off => if off = 0 then ERPResp.json (some [List.replicate 500 (0 : Nat)]) else .fetchFail) 2 =
      some (((List.range 2).map (fun j =>
        pageOf (fun off => if off = 0 then ERPResp.json (some [List.replicate 500 (0 : Nat)]) else .fetchFail)
          (500 * j))).flatten) :=
  (fetchAllSalesOrders_spec _ 1 2 (by decide)
    (by intro j hj
        interval_cases j
        show 500 ≤ (List.replicate 500 (0 : Nat)).length
        rw [List.length_replicate]) (by omega)).1

/-! ### Claim C2: the effective filter is the conjunction of the
supplied constraints -/

/-- Rewriting a conditional filter as a filter by a conditional predicate. -/
lemma condFilter_eq {A : Type} (c : Prop) [Decidable c] (f : A → Bool) (l : List A) :
    (if c then l.filter f else l) = l.filter (fun o => if c then f o else true) := by
  by_cases hc : c
  · simp only [if_pos hc]
  · simp only [if_neg hc, List.filter_true]

/-- `filterOrders` under records whose dateCreated is present: it is the
filter by the conjunction of its four constraints, in code order. -/
lemma filterOrders_ok (orders : List Order) (p : Parsed)
    (h : ∀ o ∈ orders, o.DateCreated_TransH.isSome) :
    filterOrders orders p = .ok (orders.filter (fun o =>
      (if strTruthy p.year then
        (match o.DateCreated_TransH with
         | some s => jsStartsWith s (p.year.getD "")
         | none => false) else true) &&
      ((if strTruthy p.date then decide (o.DateCreated_TransH = p.date) else true) &&
       ((match p.gpThreshold with | some g => gpMatch g o | none => true) &&
        (if strTruthy p.customer then custMatch (p.customer.getD "") o else true))))) := by
  rw [filterOrders]
  simp only [condFilter_eq]
  rw [show (match p.gpThreshold with
      | some g => (orders.filter (fun o => if strTruthy p.customer = true then
          custMatch (p.customer.getD "") o else true)).filter (gpMatch g)
      | none => orders.filter (fun o => if strTruthy p.customer = true then
          custMatch (p.customer.getD "") o else true)) =
    (orders.filter (fun o => if strTruthy p.customer = true then
        custMatch (p.customer.getD "") o else true)).filter (fun o =>
      match p.gpThreshold with | some g => gpMatch g o | none => true) from by
    rcases p.gpThreshold with _ | g
    · simp only [List.filter_true]
    · rfl]
  simp only [List.filter_filter]
  by_cases hy : strTruthy p.year
  · rw [if_pos hy]
    rw [filterE_ok _ (fun o =>
      match o.DateCreated_TransH with
      | some s => jsStartsWith s (p.year.getD "")
      | none => false) _ ?_]
    · rw [List.filter_filter]
      congr 1
      apply List.filter_congr
      intro o ho
      simp only [if_pos hy]
    · intro x hx
      obtain ⟨s, hs⟩ := Option.isSome_iff_exists.mp (h x (List.mem_filter.mp hx).1)
      simp only [hs]
  · rw [if_neg hy]
    congr 1
    apply List.filter_congr
    intro o ho
    simp only [if_neg hy, Bool.true_and]

/-- The in-`formatResponse` filters under ISO dates and a question that
does not contain "september 2025": the filter by the conjunction of the
four constraints, in code order (the date comparison collapses to plain
equality because `toISOString` is the identity on ISO date strings). -/
lemma secondaryFilter_ok (orders : List Order) (p : Parsed) (question : String)
    (hq : jsIncludes (jsLower question) "september 2025" = false)
    (hdates : ∀ o ∈ orders, ∃ s, o.DateCreated_TransH = some s ∧ isISODate s = true)
    (hpd : strTruthy p.date = true → isISODate (p.date.getD "") = true) :
    secondaryFilter orders p question = .ok (orders.filter (fun o =>
      (if strTruthy p.status then
        ciEq (jsTrim (o.Status_TransH.getD "")) (jsTrim (p.status.getD "")) else true) &&
      ((if strTruthy p.date then decide (o.DateCreated_TransH = p.date) else true) &&
       ((if strTruthy p.year then
          (match o.DateCreated_TransH with
           | some s => jsStartsWith s (p.year.getD "")
           | none => false) else true) &&
        (if strTruthy p.salesRep then
          ciEq (o.Name_Empl.getD "") (p.salesRep.getD "") else true))))) := by
  rw [secondaryFilter]
  simp only [condFilter_eq]
  have hsub1 : ∀ x ∈ orders.filter (fun o => if strTruthy p.salesRep = true then
      ciEq (o.Name_Empl.getD "") (p.salesRep.getD "") else true), x ∈ orders :=
    fun x hx => (List.mem_filter.mp hx).1
  have hstage2 : (if strTruthy p.year = true then
      filterE (fun o =>
        match o.DateCreated_TransH with
        | some s => Except.ok (jsStartsWith s (p.year.getD ""))
        | none => Except.error ())
        (orders.filter (fun o => if strTruthy p.salesRep = true then
          ciEq (o.Name_Empl.getD "") (p.salesRep.getD "") else true))
    else Except.ok (orders.filter (fun o => if strTruthy p.salesRep = true then
        ciEq (o.Name_Empl.getD "") (p.salesRep.getD "") else true))) =
      .ok ((orders.filter (fun o => if strTruthy p.salesRep = true then
        ciEq (o.Name_Empl.getD "") (p.salesRep.getD "") else true)).filter (fun o =>
          if strTruthy p.year then
            (match o.DateCreated_TransH with
             | some s => jsStartsWith s (p.year.getD "")
             | none => false) else true)) := by
    by_cases hy : strTruthy p.year
    · rw [if_pos hy]
      rw [filterE_ok _ (fun o =>
        match o.DateCreated_TransH with
        | some s => jsStartsWith s (p.year.getD "")
        | none => false) _ ?_]
      · congr 1
        apply List.filter_congr
        intro o ho
        simp only [if_pos hy]
      · intro x hx
        obtain ⟨s, hs, _⟩ := hdates x (hsub1 x hx)
        simp only [hs]
    · rw [if_neg hy]
      congr 1
      rw [show (fun (o : Order) => if strTruthy p.year then
          (match o.DateCreated_TransH with
           | some s => jsStartsWith s (p.year.getD "")
           | none => false) else true) = (fun o => true) from by
        funext o
        rw [if_neg hy]]
      rw [List.filter_true]
  rw [hstage2, ok_bind]
  have hsub2 : ∀ x ∈ (orders.filter (fun o => if strTruthy p.salesRep = true then
      ciEq (o.Name_Empl.getD "") (p.salesRep.getD "") else true)).filter (fun o =>
        if strTruthy p.year then
          (match o.DateCreated_TransH with
           | some s => jsStartsWith s (p.year.getD "")
           | none => false) else true), x ∈ orders :=
    fun x hx => hsub1 x (List.mem_filter.mp hx).1
  have hstage3 : (if strTruthy p.date = true then
      jsDateToISO (p.date.getD "") >>= fun target =>
      filterE (fun o =>
        match o.DateCreated_TransH with
        | some s => jsDateToISO s >>= fun od => Except.ok (decide (od = target))
        | none => Except.error ())
        ((orders.filter (fun o => if strTruthy p.salesRep = true then
          ciEq (o.Name_Empl.getD "") (p.salesRep.getD "") else true)).filter (fun o =>
            if strTruthy p.year then
              (match o.DateCreated_TransH with
               | some s => jsStartsWith s (p.year.getD "")
               | none => false) else true))
    else Except.ok ((orders.filter (fun o => if strTruthy p.salesRep = true then
        ciEq (o.Name_Empl.getD "") (p.salesRep.getD "") else true)).filter (fun o =>
          if strTruthy p.year then
            (match o.DateCreated_TransH with
             | some s => jsStartsWith s (p.year.getD "")
             | none => false) else true))) =
      .ok (((orders.filter (fun o => if strTruthy p.salesRep = true then
        ciEq (o.Name_Empl.getD "") (p.salesRep.getD "") else true)).filter (fun o =>
          if strTruthy p.year then
            (match o.DateCreated_TransH with
             | some s => jsStartsWith s (p.year.getD "")
             | none => false) else true)).filter (fun o =>
        if strTruthy p.date then decide (o.DateCreated_TransH = p.date) else true)) := by
    by_cases hd : strTruthy p.date
    · rw [if_pos hd]
      rw [jsDateToISO, if_pos (hpd hd), ok_bind]
      rw [filterE_ok _ (fun o =>
        if strTruthy p.date then decide (o.DateCreated_TransH = p.date) else true) _ ?_]
      intro x hx
      obtain ⟨s, hs, hiso⟩ := hdates x (hsub2 x hx)
      simp only [hs, jsDateToISO, hiso, if_true, ok_bind, if_pos hd]
      congr 1
      have hd2 : ∃ d, p.date = some d := by
        rcases hv : p.date with _ | d
        · rw [hv] at hd
          exact absurd hd (by decide)
        · exact ⟨d, rfl⟩
      obtain ⟨d, hdd⟩ := hd2
      rw [hdd]
      simp only [Option.getD_some, Option.some.injEq]
    · rw [if_neg hd]
      congr 1
      rw [show (fun (o : Order) => if strTruthy p.date then
          decide (o.DateCreated_TransH = p.date) else true) = (fun o => true) from by
        funext o
        rw [if_neg hd]]
      rw [List.filter_true]
  rw [hstage3, ok_bind, hq]
  simp only [Bool.false_eq_true, if_false]
  simp only [List.filter_filter, Bool.true_and]

/-- Modelled from the spec (§4.4 Step 1): the conjunction of all supplied
constraints — customer substring over {customer, contractDescription,
memo}, the gpThreshold comparison, case-insensitive salesRep equality,
case-insensitive trimmed status equality, date equality and year prefix;
an absent constraint imposes nothing. -/
def conjPred (p : Parsed) (o : Order) : Bool :=
  (if strTruthy p.customer then custMatch (p.customer.getD "") o else true) &&
  (match p.gpThreshold with | some g => gpMatch g o | none => true) &&
  (if strTruthy p.salesRep then ciEq (o.Name_Empl.getD "") (p.salesRep.getD "") else true) &&
  (if strTruthy p.status then
    ciEq (jsTrim (o.Status_TransH.getD "")) (jsTrim (p.status.getD "")) else true) &&
  (if strTruthy p.date then decide (o.DateCreated_TransH = p.date) else true) &&
  (if strTruthy p.year then
    (match o.DateCreated_TransH with
     | some s => jsStartsWith s (p.year.getD "")
     | none => false) else true)

/-- C2 (amended): provided the question does not contain the hard-coded
"september 2025" trigger, the records carry ISO dateCreated strings, and
a supplied date constraint is itself an ISO date, the set over which a
non-general answer is computed is EXACTLY the records satisfying the
conjunction of all supplied constraints, independent of evaluation order
— the two date-filter passes (string equality and toISOString-normalized
equality) coincide and the duplicated year pass is idempotent.  The
question-text independence in the original claim is false: see the
counterexample. -/
theorem chatbotFiltered_conj (orders : List Order) (p : Parsed) (question : String)
    (hq : jsIncludes (jsLower question) "september 2025" = false)
    (hdates : ∀ o ∈ orders, ∃ s, o.DateCreated_TransH = some s ∧ isISODate s = true)
    (hpd : strTruthy p.date = true → isISODate (p.date.getD "") = true)
    (hint : p.intent ≠ "general") :
    chatbotFiltered orders p question = .ok (orders.filter (conjPred p)) := by
  rw [chatbotFiltered,
    filterOrders_ok orders p (fun o ho => by
      obtain ⟨s, hs, _⟩ := hdates o ho
      rw [hs]
      rfl),
    ok_bind,
    secondaryFilter_ok _ p question hq (fun o ho => hdates o (List.mem_filter.mp ho).1) hpd,
    List.filter_filter]
  congr 1
  apply List.filter_congr
  intro o ho
  obtain ⟨s, hs, _⟩ := hdates o ho
  rw [conjPred, hs]
  generalize (if strTruthy p.customer then custMatch (p.customer.getD "") o else true) = a
  generalize (match p.gpThreshold with | some g => gpMatch g o | none => true) = b
  generalize (if strTruthy p.salesRep then
    ciEq (o.Name_Empl.getD "") (p.salesRep.getD "") else true) = c
  generalize (if strTruthy p.status then
    ciEq (jsTrim (o.Status_TransH.getD "")) (jsTrim (p.status.getD "")) else true) = d
  generalize (if strTruthy p.date then decide (some s = p.date) else true) = e
  generalize (if strTruthy p.year then jsStartsWith s (p.year.getD "") else true) = f
  cases a <;> cases b <;> cases c <;> cases d <;> cases e <;> cases f <;> rfl

/-- C2 witness: with no "september 2025" in the question, the pipeline
computes exactly the conjunction set. -/
theorem chatbotFiltered_conj_witness :
    chatbotFiltered [soA, soB] { generalParsed with intent := "count", year := some "2024" }
        "how many orders in 2024" =
      .ok (([soA, soB] : List Order).filter
        (conjPred { generalParsed with intent := "count", year := some "2024" })) :=
  chatbotFiltered_conj [soA, soB] _ _ (by decide)
    (by
      intro o ho
      simp only [List.mem_cons, List.not_mem_nil, or_false] at ho
      rcases ho with rfl | rfl
      · exact ⟨"2024-03-15", rfl, rfl⟩
      · exact ⟨"2024-03-02", rfl, rfl⟩)
    (by intro h; cases h) (by decide)

/-- C2 counterexample: with the question "show september 2025" the
hard-coded question-text filter drops a record that satisfies every
supplied constraint (here: none), so the computed filtered set is NOT
the conjunction set and depends on the question text. -/
theorem chatbotFiltered_question_cx :
    chatbotFiltered [soA] { generalParsed with intent := "count" } "show september 2025" =
      .ok [] ∧
    conjPred { generalParsed with intent := "count" } soA = true ∧
    ([soA] : List Order).filter (conjPred { generalParsed with intent := "count" }) = [soA] := by
  refine ⟨by decide, by decide, by decide⟩

lemma bump_keys {K : Type} [DecidableEq K] (k : K) (a : Option Rat)
    (m : List (K × Option Rat)) :
    (bump k a m).map Prod.fst = occStep (m.map Prod.fst) k := by
  induction m with
  | nil => simp [bump, occStep]
  | cons e m ih =>
      obtain ⟨k2, v2⟩ := e
      by_cases h : k2 = k
      · subst h
        simp [bump, occStep, List.mem_cons]
      · simp only [bump, if_neg h, List.map_cons, ih, occStep, List.mem_cons]
        by_cases hm : k ∈ m.map Prod.fst
        · simp [hm, Ne.symm h]
        · simp [hm, Ne.symm h]

lemma lookupG_bump_self {K : Type} [DecidableEq K] (k : K) (a : Option Rat)
    (m : List (K × Option Rat)) :
    lookupG k (bump k a m) = some (jsAddAmt (lookupG k m).join a) := by
  induction m with
  | nil => simp [bump, lookupG, List.find?]
  | cons e m ih =>
      obtain ⟨k2, v2⟩ := e
      by_cases h : k2 = k
      · subst h
        simp [bump, lookupG, List.find?]
      · simp only [bump, if_neg h, lookupG, List.find?, decide_eq_true_eq] at ih ⊢
        simp only [h, decide_False]
        exact ih

lemma lookupG_bump_other {K : Type} [DecidableEq K] (k' k : K) (h : k' ≠ k)
    (a : Option Rat) (m : List (K × Option Rat)) :
    lookupG k' (bump k a m) = lookupG k' m := by
  induction m with
  | nil => simp [bump, lookupG, List.find?, Ne.symm h]
  | cons e m ih =>
      obtain ⟨k2, v2⟩ := e
      by_cases hk : k2 = k
      · subst hk
        simp [bump, lookupG, List.find?, Ne.symm h]
      · simp only [bump, if_neg hk, lookupG, List.find?] at ih ⊢
        by_cases hx : k2 = k'
        · simp [hx]
        · simp only [hx, decide_False]
          exact ih

lemma bumpFold_keys_gen {α K : Type} [DecidableEq K] (key : α → K)
    (amt : α → Option Rat) :
    ∀ (l : List α) (m : List (K × Option Rat)),
      (l.foldl (fun m o => bump (key o) (amt o) m) m).map Prod.fst =
        (l.map key).foldl occStep (m.map Prod.fst) := by
  intro l
  induction l with
  | nil => intro m; rfl
  | cons o l ih =>
      intro m
      simp only [List.foldl_cons, List.map_cons]
      rw [ih, bump_keys]

lemma bumpFold_keys {α K : Type} [DecidableEq K] (key : α → K)
    (amt : α → Option Rat) (l : List α) :
    (bumpFold key amt l).map Prod.fst = firstOccKeys (l.map key) :=
  bumpFold_keys_gen key amt l []

lemma occFold_mem {K : Type} [DecidableEq K] :
    ∀ (ks acc : List K) (x : K),
      x ∈ ks.foldl occStep acc ↔ x ∈ acc ∨ x ∈ ks := by
  intro ks
  induction ks with
  | nil => intro acc x; simp
  | cons k ks ih =>
      intro acc x
      simp only [List.foldl_cons, List.mem_cons]
      rw [ih]
      by_cases h : k ∈ acc
      · simp only [occStep, if_pos h]
        constructor
        · rintro (hx | hx)
          · exact Or.inl hx
          · exact Or.inr (Or.inr hx)
        · rintro (hx | hx | hx)
          · exact Or.inl hx
          · exact Or.inl (hx ▸ h)
          · exact Or.inr hx
      · simp only [occStep, if_neg h, List.mem_append, List.mem_singleton]
        tauto

lemma firstOccKeys_mem {K : Type} [DecidableEq K] (ks : List K) (x : K) :
    x ∈ firstOccKeys ks ↔ x ∈ ks := by
  simpa [firstOccKeys] using occFold_mem ks [] x

lemma occFold_nodup {K : Type} [DecidableEq K] :
    ∀ (ks acc : List K), acc.Nodup → (ks.foldl occStep acc).Nodup := by
  intro ks
  induction ks with
  | nil => intro acc h; exact h
  | cons k ks ih =>
      intro acc h
      simp only [List.foldl_cons]
      apply ih
      by_cases hk : k ∈ acc
      · simpa [occStep, hk] using h
      · simp only [occStep, if_neg hk]
        exact List.nodup_append.mpr
          ⟨h, List.nodup_singleton k,
           fun a ha hb => hk ((List.mem_singleton.mp hb) ▸ ha)⟩

lemma firstOccKeys_nodup {K : Type} [DecidableEq K] (ks : List K) :
    (firstOccKeys ks).Nodup :=
  occFold_nodup ks [] List.nodup_nil

lemma firstOccKeys_length {K : Type} [DecidableEq K] (ks : List K) :
    (firstOccKeys ks).length = ks.toFinset.card := by
  have hsets : (firstOccKeys ks).toFinset = ks.toFinset := by
    ext x
    simp [List.mem_toFinset, firstOccKeys_mem]
  rw [← List.toFinset_card_of_nodup (firstOccKeys_nodup ks), hsets]

lemma firstOccKeys_eq_nil {K : Type} [DecidableEq K] (ks : List K) :
    firstOccKeys ks = [] ↔ ks = [] := by
  constructor
  · intro h
    cases ks with
    | nil => rfl
    | cons k ks =>
        exact absurd h (List.ne_nil_of_mem ((firstOccKeys_mem _ k).mpr (by simp)))
  · intro h
    subst h
    rfl

lemma lookupG_of_mem {K : Type} [DecidableEq K] (m : List (K × Option Rat))
    (hnd : (m.map Prod.fst).Nodup) (e : K × Option Rat) (he : e ∈ m) :
    lookupG e.1 m = some e.2 := by
  induction m with
  | nil => cases he
  | cons x m ih =>
      rw [List.map_cons, List.nodup_cons] at hnd
      obtain ⟨hx, hnd2⟩ := hnd
      rcases List.mem_cons.mp he with rfl | he2
      · simp [lookupG, List.find?]
      · have hne : x.1 ≠ e.1 := by
          intro hh
          exact hx (hh ▸ List.mem_map_of_mem Prod.fst he2)
        simp only [lookupG, List.find?, hne, decide_False]
        exact ih hnd2 he2

lemma bumpFold_lookup {α K : Type} [DecidableEq K] (key : α → K)
    (amt : α → Option Rat) (l : List α) :
    (∀ o ∈ l, (amt o).isSome) → ∀ k : K,
      lookupG k (bumpFold key amt l) =
        if k ∈ l.map key then some (some (groupValG key amt k l)) else none := by
  induction l using List.reverseRecOn with
  | nil => intro _ k; simp [bumpFold, lookupG, List.find?, groupValG]
  | append_singleton l o ih =>
      intro hl k
      have hfold : bumpFold key amt (l ++ [o]) =
          bump (key o) (amt o) (bumpFold key amt l) := by
        simp [bumpFold, List.foldl_append]
      have hl2 : ∀ x ∈ l, (amt x).isSome :=
        fun x hx => hl x (List.mem_append_left _ hx)
      have ho : (amt o).isSome := hl o (List.mem_append_right _ (by simp))
      obtain ⟨q, hq⟩ := Option.isSome_iff_exists.mp ho
      rw [hfold]
      by_cases hk : key o = k
      · rw [← hk]
        have hmem1 : key o ∈ (l ++ [o]).map key := by simp
        rw [lookupG_bump_self, ih hl2 (key o), if_pos hmem1]
        by_cases hml : key o ∈ l.map key
        · rw [if_pos hml]
          have hval : groupValG key amt (key o) (l ++ [o]) =
              groupValG key amt (key o) l + q := by
            simp [groupValG, List.filter_append, List.filter_cons, hq]
          rw [hval, hq]
          rfl
        · rw [if_neg hml]
          have hfil : l.filter (fun x => decide (key x = key o)) = [] := by
            refine List.filter_eq_nil.mpr ?_
            intro x hx
            simp only [decide_eq_true_eq]
            intro hxx
            exact hml (hxx ▸ List.mem_map_of_mem key hx)
          have hval : groupValG key amt (key o) (l ++ [o]) = 0 + q := by
            simp [groupValG, List.filter_append, List.filter_cons, hfil, hq]
          rw [hval, hq]
          rfl
      · rw [lookupG_bump_other k (key o) (fun hh => hk hh.symm), ih hl2 k]
        have hval : groupValG key amt k (l ++ [o]) = groupValG key amt k l := by
          simp [groupValG, List.filter_append, List.filter_cons, hk]
        by_cases hml : k ∈ l.map key
        · have hmem1 : k ∈ (l ++ [o]).map key := by simp [hml]
          rw [if_pos hml, if_pos hmem1, hval]
        · have hmem0 : ¬ k ∈ (l ++ [o]).map key := by
            intro hc
            rcases List.mem_map.mp hc with ⟨x, hx, hxk⟩
            rcases List.mem_append.mp hx with hx1 | hx1
            · exact hml (hxk ▸ List.mem_map_of_mem key hx1)
            · have hxo : x = o := by simpa using hx1
              exact hk (hxo ▸ hxk)
          rw [if_neg hml, if_neg hmem0]

lemma bumpFold_keys_nodup {α K : Type} [DecidableEq K] (key : α → K)
    (amt : α → Option Rat) (l : List α) :
    ((bumpFold key amt l).map Prod.fst).Nodup := by
  rw [bumpFold_keys]
  exact firstOccKeys_nodup _

lemma bumpFold_mem_val {α K : Type} [DecidableEq K] (key : α → K)
    (amt : α → Option Rat) (l : List α) (hl : ∀ o ∈ l, (amt o).isSome)
    (e : K × Option Rat) (he : e ∈ bumpFold key amt l) :
    e.2 = some (groupValG key amt e.1 l) := by
  have hlook : lookupG e.1 (bumpFold key amt l) = some e.2 :=
    lookupG_of_mem _ (bumpFold_keys_nodup key amt l) e he
  rw [bumpFold_lookup key amt l hl e.1] at hlook
  by_cases hmem : e.1 ∈ l.map key
  · rw [if_pos hmem] at hlook
    exact (Option.some.injEq _ _ ▸ hlook).symm
  · rw [if_neg hmem] at hlook
    cases hlook

lemma insDesc_perm {K : Type} (x : K × Option Rat) (l : List (K × Option Rat)) :
    List.Perm (insDesc x l) (x :: l) := by
  induction l with
  | nil => exact List.Perm.refl _
  | cons y ys ih =>
      by_cases h : sortVal y.2 ≤ sortVal x.2
      · rw [insDesc, if_pos h]
      · rw [insDesc, if_neg h]
        exact (ih.cons y).trans (List.Perm.swap x y ys)

lemma sortDesc_perm {K : Type} (l : List (K × Option Rat)) :
    List.Perm (sortDesc l) l := by
  induction l with
  | nil => exact List.Perm.refl _
  | cons x l ih => exact (insDesc_perm x (sortDesc l)).trans (ih.cons x)

lemma insDesc_sorted {K : Type} (x : K × Option Rat) (l : List (K × Option Rat))
    (h : l.Sorted (fun a b => sortVal b.2 ≤ sortVal a.2)) :
    (insDesc x l).Sorted (fun a b => sortVal b.2 ≤ sortVal a.2) := by
  induction l with
  | nil => simp [insDesc]
  | cons y ys ih =>
      rw [List.sorted_cons] at h
      obtain ⟨hy, hys⟩ := h
      by_cases hc : sortVal y.2 ≤ sortVal x.2
      · rw [insDesc, if_pos hc, List.sorted_cons]
        refine ⟨?_, List.sorted_cons.mpr ⟨hy, hys⟩⟩
        intro b hb
        rcases List.mem_cons.mp hb with rfl | hb2
        · exact hc
        · exact (hy b hb2).trans hc
      · rw [insDesc, if_neg hc, List.sorted_cons]
        refine ⟨?_, ih hys⟩
        intro b hb
        have hb2 : b ∈ x :: ys := (insDesc_perm x ys).mem_iff.mp hb
        rcases List.mem_cons.mp hb2 with rfl | hb3
        · exact le_of_not_le hc
        · exact hy b hb3

lemma sortDesc_sorted {K : Type} (l : List (K × Option Rat)) :
    (sortDesc l).Sorted (fun a b => sortVal b.2 ≤ sortVal a.2) := by
  induction l with
  | nil => simp [sortDesc]
  | cons x l ih => exact insDesc_sorted x (sortDesc l) ih

lemma insDesc_filter {K : Type} (x : K × Option Rat) (l : List (K × Option Rat))
    (v : Rat) :
    (insDesc x l).filter (fun e => decide (sortVal e.2 = v)) =
      if sortVal x.2 = v then x :: l.filter (fun e => decide (sortVal e.2 = v))
      else l.filter (fun e => decide (sortVal e.2 = v)) := by
  induction l with
  | nil =>
      by_cases hx : sortVal x.2 = v <;> simp [insDesc, hx]
  | cons y ys ih =>
      by_cases hc : sortVal y.2 ≤ sortVal x.2
      · rw [insDesc, if_pos hc, List.filter_cons]
        by_cases hx : sortVal x.2 = v <;> simp [hx]
      · rw [insDesc, if_neg hc, List.filter_cons, List.filter_cons, ih]
        by_cases hy : sortVal y.2 = v
        · have hx : ¬ sortVal x.2 = v := by
            have hlt : sortVal x.2 < sortVal y.2 := lt_of_not_le hc
            intro hxx
            rw [hxx, hy] at hlt
            exact lt_irrefl v hlt
          simp [hy, hx]
        · by_cases hx : sortVal x.2 = v <;> simp [hy, hx]

lemma sortDesc_filter {K : Type} (l : List (K × Option Rat)) (v : Rat) :
    (sortDesc l).filter (fun e => decide (sortVal e.2 = v)) =
      l.filter (fun e => decide (sortVal e.2 = v)) := by
  induction l with
  | nil => rfl
  | cons x l ih =>
      show (insDesc x (sortDesc l)).filter _ = _
      rw [insDesc_filter, List.filter_cons]
      by_cases hx : sortVal x.2 = v <;> simp [hx, ih]

lemma insAscKey_perm (x : String × Option Rat) (l : List (String × Option Rat)) :
    List.Perm (insAscKey x l) (x :: l) := by
  induction l with
  | nil => exact List.Perm.refl _
  | cons y ys ih =>
      by_cases h : x.1 ≤ y.1
      · rw [insAscKey, if_pos h]
      · rw [insAscKey, if_neg h]
        exact (ih.cons y).trans (List.Perm.swap x y ys)

lemma sortAscKey_perm (l : List (String × Option Rat)) :
    List.Perm (sortAscKey l) l := by
  induction l with
  | nil => exact List.Perm.refl _
  | cons x l ih => exact (insAscKey_perm x (sortAscKey l)).trans (ih.cons x)

lemma insAscKey_sorted (x : String × Option Rat) (l : List (String × Option Rat))
    (h : l.Sorted (fun a b => a.1 ≤ b.1)) :
    (insAscKey x l).Sorted (fun a b => a.1 ≤ b.1) := by
  induction l with
  | nil => simp [insAscKey]
  | cons y ys ih =>
      rw [List.sorted_cons] at h
      obtain ⟨hy, hys⟩ := h
      by_cases hc : x.1 ≤ y.1
      · rw [insAscKey, if_pos hc, List.sorted_cons]
        refine ⟨?_, List.sorted_cons.mpr ⟨hy, hys⟩⟩
        intro b hb
        rcases List.mem_cons.mp hb with rfl | hb2
        · exact hc
        · exact hc.trans (hy b hb2)
      · rw [insAscKey, if_neg hc, List.sorted_cons]
        refine ⟨?_, ih hys⟩
        intro b hb
        have hb2 : b ∈ x :: ys := (insAscKey_perm x ys).mem_iff.mp hb
        rcases List.mem_cons.mp hb2 with rfl | hb3
        · exact le_of_not_le hc
        · exact hy b hb3

lemma sortAscKey_sorted (l : List (String × Option Rat)) :
    (sortAscKey l).Sorted (fun a b => a.1 ≤ b.1) := by
  induction l with
  | nil => simp [sortAscKey]
  | cons x l ih => exact insAscKey_sorted x (sortAscKey l) ih

lemma sorted_key_lt_of_nodup (l : List (String × Option Rat))
    (hs : l.Sorted (fun a b => a.1 ≤ b.1)) (hnd : (l.map Prod.fst).Nodup) :
    l.Sorted (fun a b => a.1 < b.1) := by
  have hne : l.Pairwise (fun a b => a.1 ≠ b.1) := List.pairwise_map.mp hnd
  exact (hs.and hne).imp (fun h => lt_of_le_of_ne h.1 h.2)

lemma rankRows_ranks {K : Type} (l : List (K × Option Rat)) :
    (rankRows l).map Prod.fst = List.range' 1 l.length := by
  unfold rankRows
  rw [List.map_map]
  have h1 : (Prod.fst ∘ fun p : Nat × (K × Option Rat) => (p.1 + 1, p.2)) =
      (fun n => n + 1) ∘ Prod.fst := rfl
  rw [h1, ← List.map_map, List.enum_map_fst, List.range'_eq_map_range]
  refine List.map_congr_left ?_
  intro a _
  exact Nat.add_comm a 1

lemma monthlyFold_gen (rep : String) :
    ∀ (l : List Order) (m : List (String × Option Rat)),
      (∀ o ∈ l, o.salesRep.isSome) →
      l.foldlM (monthlyStep rep) m =
        .ok ((l.filter (monthlyQualifies rep)).foldl
          (fun m o => bump (monthKey o) o.amount m) m) := by
  intro l
  induction l with
  | nil => intro m _; rfl
  | cons o l ih =>
      intro m hl
      have ho : o.salesRep.isSome := hl o (by simp)
      obtain ⟨r, hr⟩ := Option.isSome_iff_exists.mp ho
      have hl2 : ∀ x ∈ l, x.salesRep.isSome := fun x hx => hl x (by simp [hx])
      rw [List.foldlM_cons, List.filter_cons]
      by_cases hd : strTruthy o.date
      · by_cases hst : inValidStatuses o.Status_TransH
        · by_cases hrep : jsLower r = jsLower rep
          · have hstep : monthlyStep rep m o = .ok (bump (monthKey o) o.amount m) := by
              rw [monthlyStep, if_neg (by simp [hd]), if_neg (by simp [hst]), hr]
              simp [hrep]
            have hq : monthlyQualifies rep o = true := by
              simp [monthlyQualifies, hd, hst, hr, hrep]
            rw [hstep, ok_bind, if_pos hq, List.foldl_cons]
            exact ih (bump (monthKey o) o.amount m) hl2
          · have hstep : monthlyStep rep m o = .ok m := by
              rw [monthlyStep, if_neg (by simp [hd]), if_neg (by simp [hst]), hr]
              simp [hrep]
            have hq : ¬ monthlyQualifies rep o = true := by
              simp [monthlyQualifies, hd, hst, hr, hrep]
            rw [hstep, ok_bind, if_neg hq]
            exact ih m hl2
        · have hstep : monthlyStep rep m o = .ok m := by
            rw [monthlyStep, if_neg (by simp [hd]), if_pos (by simp [hst])]
          have hq : ¬ monthlyQualifies rep o = true := by
            simp [monthlyQualifies, hst]
          rw [hstep, ok_bind, if_neg hq]
          exact ih m hl2
      · have hstep : monthlyStep rep m o = .ok m := by
          rw [monthlyStep, if_pos (by simp [hd])]
        have hq : ¬ monthlyQualifies rep o = true := by
          simp [monthlyQualifies, hd]
        rw [hstep, ok_bind, if_neg hq]
        exact ih m hl2

lemma monthlyFold_ok (rep : String) (l : List Order)
    (h : ∀ o ∈ l, o.salesRep.isSome) :
    monthlyFold rep l = .ok (monthlyPure rep l) :=
  monthlyFold_gen rep l [] h

lemma topSpec_all (key : Order → Option String) (F : List Order) (n : Nat) :
    TopSpec key F n := by
  refine ⟨sortDesc_sorted _, fun v => sortDesc_filter _ v, ?_, ?_, ?_, rankRows_ranks _⟩
  · exact bumpFold_keys key (fun o => o.amount) F
  · intro hF e he
    exact bumpFold_mem_val key (fun o => o.amount) F hF e he
  · have hlen : (groupSums key F).length = (F.map key).toFinset.card := by
      have h1 : (groupSums key F).length =
          ((groupSums key F).map Prod.fst).length := (List.length_map _ _).symm
      rw [h1]
      show ((bumpFold key (fun o => o.amount) F).map Prod.fst).length = _
      rw [bumpFold_keys key (fun o => o.amount) F, firstOccKeys_length]
    rw [List.length_take, (sortDesc_perm (groupSums key F)).length_eq, hlen]

/-- C6: for the topCustomers / topDivision / topSales intents (non-empty
input, secondary filtering yielding `F`), formatResponse answers with the
top-N pipeline over the customer / division / salesRep key respectively,
and that pipeline satisfies `TopSpec`: groups (one per distinct key, in
first-encounter order) with summed amounts, sorted descending by sum,
stably (ties keep first-encounter order), sliced to
`min (topN || 1) #groups` rows and ranked from 1. -/
theorem formatResponse_topN (orders F : List Order) (p : Parsed)
    (question : String) (hne : orders ≠ [])
    (hsec : secondaryFilter orders p question = .ok F) :
    (p.intent = "topCustomers" →
      formatResponse orders p question =
        .ok (.topR "Customer" (topReport (fun o => o.Name_Cust) F p.topN)) ∧
      TopSpec (fun o => o.Name_Cust) F (jsTopN p.topN)) ∧
    (p.intent = "topDivision" →
      formatResponse orders p question =
        .ok (.topR "Division" (topReport (fun o => o.division) F p.topN)) ∧
      TopSpec (fun o => o.division) F (jsTopN p.topN)) ∧
    (p.intent = "topSales" →
      formatResponse orders p question =
        .ok (.topR "Sales Personnel" (topReport (fun o => o.salesRep) F p.topN)) ∧
      TopSpec (fun o => o.salesRep) F (jsTopN p.topN)) := by
  have hie : ¬ orders.isEmpty = true := fun h => hne (List.isEmpty_iff.mp h)
  refine ⟨fun hint => ⟨?_, topSpec_all _ F _⟩,
    fun hint => ⟨?_, topSpec_all _ F _⟩,
    fun hint => ⟨?_, topSpec_all _ F _⟩⟩
  · rw [formatResponse, hint, if_neg (by decide), if_neg hie, hsec, ok_bind,
      if_neg (by decide), if_neg (by decide), if_neg (by decide), if_pos rfl]
  · rw [formatResponse, hint, if_neg (by decide), if_neg hie, hsec, ok_bind,
      if_neg (by decide), if_neg (by decide), if_neg (by decide),
      if_neg (by decide), if_pos rfl]
  · rw [formatResponse, hint, if_neg (by decide), if_neg hie, hsec, ok_bind,
      if_neg (by decide), if_neg (by decide), if_neg (by decide),
      if_neg (by decide), if_neg (by decide), if_pos rfl]

/-- C6 witness: two Acme orders (1000 and 500), topN = 2 — one group,
summed to 1500, one rendered row ranked 1. -/
theorem formatResponse_topN_witness :
    formatResponse [soA, soB]
        { generalParsed with intent := "topCustomers", topN := some 2 } "q" =
      .ok (.topR "Customer"
        (topReport (fun o => o.Name_Cust) [soA, soB] (some 2))) ∧
    topReport (fun o => o.Name_Cust) [soA, soB] (some 2) =
      [(1, some "Acme", some 1500)] :=
  ⟨((formatResponse_topN [soA, soB] [soA, soB]
      { generalParsed with intent := "topCustomers", topN := some 2 } "q"
      (by decide) (by decide)).1 rfl).1,
   by decide⟩

/-- C7: for a monthlyTotals descriptor, (part A) a missing year or
salesRep sends the request to the data-context fallback branch, and
(part B) with both present — and salesRep present on each filtered
record, since the forEach dereferences it without a guard — the answer
buckets exactly the allow-listed, case-insensitively salesRep-matching
records by the first 7 date characters, sums amount per bucket, renders
the buckets in strictly ascending month order, and an empty grouping
yields the explicit no-data message. -/
theorem formatResponse_monthly (orders F : List Order) (p : Parsed)
    (question : String) (hne : orders ≠ [])
    (hint : p.intent = "monthlyTotals")
    (hsec : secondaryFilter orders p question = .ok F) :
    (¬ (strTruthy p.year = true ∧ strTruthy p.salesRep = true) →
      formatResponse orders p question = .ok (.fallback (F.take 200))) ∧
    (strTruthy p.year = true → strTruthy p.salesRep = true →
      (∀ o ∈ F, o.salesRep.isSome) →
      formatResponse orders p question =
        .ok (if (sortAscKey (monthlyPure (p.salesRep.getD "") F)).isEmpty
             then .monthlyNoData (p.salesRep.getD "") (p.year.getD "")
             else .monthlyR (sortAscKey (monthlyPure (p.salesRep.getD "") F))) ∧
      List.Perm (sortAscKey (monthlyPure (p.salesRep.getD "") F))
        (monthlyPure (p.salesRep.getD "") F) ∧
      (sortAscKey (monthlyPure (p.salesRep.getD "") F)).Sorted
        (fun a b => a.1 < b.1) ∧
      (monthlyPure (p.salesRep.getD "") F).map Prod.fst =
        firstOccKeys
          ((F.filter (monthlyQualifies (p.salesRep.getD ""))).map monthKey) ∧
      ((∀ o ∈ F, o.amount.isSome) →
        ∀ e ∈ monthlyPure (p.salesRep.getD "") F,
          e.2 = some (groupValG monthKey (fun o => o.amount) e.1
            (F.filter (monthlyQualifies (p.salesRep.getD ""))))) ∧
      ((sortAscKey (monthlyPure (p.salesRep.getD "") F)).isEmpty = true ↔
        F.filter (monthlyQualifies (p.salesRep.getD "")) = [])) := by
  have hie : ¬ orders.isEmpty = true := fun h => hne (List.isEmpty_iff.mp h)
  constructor
  · intro hcond
    rw [formatResponse, hint, if_neg (by decide), if_neg hie, hsec, ok_bind,
      if_neg (by decide), if_neg (by decide), if_neg (by decide),
      if_neg (by decide), if_neg (by decide), if_neg (by decide),
      if_neg (fun h => hcond ⟨h.2.1, h.2.2⟩)]
  · intro hy hr hsome
    have hndG : ((monthlyPure (p.salesRep.getD "") F).map Prod.fst).Nodup :=
      bumpFold_keys_nodup monthKey (fun o => o.amount)
        (F.filter (monthlyQualifies (p.salesRep.getD "")))
    refine ⟨?_, sortAscKey_perm _, ?_, ?_, ?_, ?_⟩
    · rw [formatResponse, hint, if_neg (by decide), if_neg hie, hsec, ok_bind,
        if_neg (by decide), if_neg (by decide), if_neg (by decide),
        if_neg (by decide), if_neg (by decide), if_neg (by decide),
        if_pos ⟨rfl, hy, hr⟩,
        monthlyFold_ok (p.salesRep.getD "") F hsome, ok_bind]
      show (if (sortAscKey (monthlyPure (p.salesRep.getD "") F)).isEmpty = true
          then Except.ok (Resp.monthlyNoData (p.salesRep.getD "") (p.year.getD ""))
          else Except.ok
            (Resp.monthlyR (sortAscKey (monthlyPure (p.salesRep.getD "") F)))) = _
      by_cases hrows :
          (sortAscKey (monthlyPure (p.salesRep.getD "") F)).isEmpty = true
      · rw [if_pos hrows, if_pos hrows]
      · rw [if_neg hrows, if_neg hrows]
    · have hperm : List.Perm
          ((sortAscKey (monthlyPure (p.salesRep.getD "") F)).map Prod.fst)
          ((monthlyPure (p.salesRep.getD "") F).map Prod.fst) :=
        (sortAscKey_perm _).map Prod.fst
      exact sorted_key_lt_of_nodup _ (sortAscKey_sorted _)
        (hperm.nodup_iff.mpr hndG)
    · exact bumpFold_keys monthKey (fun o => o.amount)
        (F.filter (monthlyQualifies (p.salesRep.getD "")))
    · intro hamt e he
      exact bumpFold_mem_val monthKey (fun o => o.amount) _
        (fun o ho => hamt o (List.mem_of_mem_filter ho)) e he
    · constructor
      · intro hemp
        have h1 : sortAscKey (monthlyPure (p.salesRep.getD "") F) = [] :=
          List.isEmpty_iff.mp hemp
        have hp := sortAscKey_perm (monthlyPure (p.salesRep.getD "") F)
        rw [h1] at hp
        have h2 : monthlyPure (p.salesRep.getD "") F = [] :=
          List.Perm.eq_nil hp.symm
        have h3 : (monthlyPure (p.salesRep.getD "") F).map Prod.fst = [] := by
          rw [h2]
          rfl
        rw [monthlyPure, bumpFold_keys monthKey (fun o => o.amount)
          (F.filter (monthlyQualifies (p.salesRep.getD "")))] at h3
        exact List.map_eq_nil.mp ((firstOccKeys_eq_nil _).mp h3)
      · intro hfil
        have h2 : monthlyPure (p.salesRep.getD "") F = [] := by
          rw [monthlyPure, hfil]
          rfl
        rw [h2]
        rfl

/-- C7 witness: one BILLED March-2024 order by Alice, descriptor
year 2024 / salesRep "alice" — a single "2024-03" bucket of 1000. -/
theorem formatResponse_monthly_witness :
    formatResponse [soA] { generalParsed with intent := "monthlyTotals", year := some "2024", salesRep := some "alice" } "q" =
      .ok (.monthlyR [("2024-03", some 1000)]) := by
  have h := (formatResponse_monthly [soA] [soA]
      { generalParsed with intent := "monthlyTotals", year := some "2024", salesRep := some "alice" } "q"
      (by decide) rfl (by decide)).2 (by decide) (by decide) (by decide)
  rw [h.1]
  decide

/-- C7 counterexample: with the year missing, a request over an empty
record set answers with the fixed zero-orders message, not the fallback
branch — the routing claim fails on empty input. -/
theorem formatResponse_monthly_zero_cx :
    formatResponse []
        { generalParsed with intent := "monthlyTotals", salesRep := some "bob" }
        "q" = .ok .zeroOrders ∧
    Resp.zeroOrders ≠ .fallback (([] : List Order).take 200) := by
  exact ⟨by decide, by decide⟩

end GfxAss
